import Mathlib

/-
Verification development for the UPS invoice analysis engine
(src/parser.py and src/analyzer.py).

Modelling conventions:
- A pandas DataFrame of charge lines is a `List Row`; the derived shipment
  table is a `List Package`.
- Monetary and weight values are rationals (the Python code uses floats;
  float rounding is idealised as exact decimal half-even rounding).
- Nullable columns are `Option` fields; `pd.groupby` drops `none` keys.
- pandas sorts group keys; no property proved here observes group-key
  order, and the embedding keeps keys in first-appearance order.
- `sort_values` ties are left unspecified by pandas (quicksort); the
  embedding uses a stable sort, and no property proved here observes the
  relative order of tied rows except for `nlargest`, whose keep-first
  semantics is documented to preserve input order.
-/

def qsum {α : Type} (f : α → ℚ) (l : List α) : ℚ := (l.map f).sum

/-- Distinct values of a list keeping the first occurrence of each. -/
def dedupKeepFirst {κ : Type} [DecidableEq κ] (l : List κ) : List κ :=
  (l.reverse.dedup).reverse

/-- Insert x into l, placing it after every element y with bef y x. -/
def insertBy {α : Type} (bef : α → α → Bool) (x : α) : List α → List α
  | [] => [x]
  | y :: ys => if bef y x then y :: insertBy bef x ys else x :: y :: ys

/-- Stable insertion sort: y ends up before x whenever bef y x. -/
def sortBy {α : Type} (bef : α → α → Bool) : List α → List α
  | [] => []
  | x :: xs => insertBy bef x (sortBy bef xs)

/- ----- calendar ----- -/

structure Date where
  year : ℕ
  month : ℕ
  day : ℕ
deriving DecidableEq, Inhabited

/-- Lexicographic key; faithful to timestamp order for calendar dates. -/
def Date.key (d : Date) : ℕ := d.year * 10000 + d.month * 100 + d.day

def dateLe (a b : Date) : Bool := Nat.ble a.key b.key

def dateMin (a b : Date) : Date := if dateLe a b then a else b

def dateMax (a b : Date) : Date := if dateLe a b then b else a

def isLeap (y : ℕ) : Bool :=
  decide (y % 4 = 0) && (decide (y % 100 ≠ 0) || decide (y % 400 = 0))

def daysBeforeMonth (leap : Bool) (m : ℕ) : ℕ :=
  let base :=
    match m with
    | 1 => 0 | 2 => 31 | 3 => 59 | 4 => 90 | 5 => 120 | 6 => 151
    | 7 => 181 | 8 => 212 | 9 => 243 | 10 => 273 | 11 => 304 | _ => 334
  if leap && decide (3 ≤ m) then base + 1 else base

def dayOfYear (d : Date) : ℕ := daysBeforeMonth (isLeap d.year) d.month + d.day

/-- Day of week, Monday = 0, via Zeller's congruence. -/
def weekdayMon0 (d : Date) : ℕ :=
  let m := if d.month ≤ 2 then d.month + 12 else d.month
  let y := if d.month ≤ 2 then d.year - 1 else d.year
  let k := y % 100
  let j := y / 100
  let h := (d.day + (13 * (m + 1)) / 5 + k + k / 4 + j / 4 + 5 * j) % 7
  (h + 5) % 7

/-- Week number in the sense of strftime %W: Monday-based week of the
year, with days before the year's first Monday in week 0. -/
def weekW (d : Date) : ℕ := (dayOfYear d + 6 - weekdayMon0 d) / 7

def pad2 (n : ℕ) : String := if n < 10 then "0" ++ toString n else toString n

/-- strftime "%Y-W%W" as used by analyze_trends for period="week". -/
def weekLabel (d : Date) : String := toString d.year ++ "-W" ++ pad2 (weekW d)

/-- strftime "%Y-%m". -/
def monthLabel (d : Date) : String := toString d.year ++ "-" ++ pad2 d.month

/-- strftime "%Y-%m-%d". -/
def dateStr (d : Date) : String :=
  toString d.year ++ "-" ++ pad2 d.month ++ "-" ++ pad2 d.day

/-- Modelled from the spec: ISO-8601 week numbering (week 1 is the week
containing the first Thursday; weeks start Monday).  The analyzer itself
does not compute this; it is the comparison definition for the claim that
trend buckets are ISO weeks. -/
def isoWeeksInYear (y : ℕ) : ℕ :=
  let jan1 := weekdayMon0 ⟨y, 1, 1⟩
  if jan1 = 3 || (isLeap y && decide (jan1 = 2)) then 53 else 52

/-- Modelled from the spec: the (ISO year, ISO week) pair of a date. -/
def isoYearWeek (d : Date) : ℕ × ℕ :=
  let w := (dayOfYear d + 10 - (weekdayMon0 d + 1)) / 7
  if w = 0 then (d.year - 1, isoWeeksInYear (d.year - 1))
  else if w = 53 && decide (isoWeeksInYear d.year = 52) then (d.year + 1, 1)
  else (d.year, w)

/- ----- lexicographic string order (Python string comparison) ----- -/

def chLt (a b : Char) : Bool := Nat.blt a.toNat b.toNat

def lexLt : List Char → List Char → Bool
  | [], [] => false
  | [], _ :: _ => true
  | _ :: _, [] => false
  | a :: as, b :: bs => chLt a b || (a == b && lexLt as bs)

def strLt (s t : String) : Bool := lexLt s.data t.data

/- ----- decimal rounding (numpy round, half to even, idealised) ----- -/

def roundHalfEven (q : ℚ) : ℤ :=
  let f := ⌊q⌋
  let r := q - f
  if r < 1/2 then f
  else if 1/2 < r then f + 1
  else if f % 2 = 0 then f else f + 1

def round2 (q : ℚ) : ℚ := (roundHalfEven (q * 100) : ℚ) / 100

/- ----- charge-line records (parser output, one per CSV line) ----- -/

/-- One parsed charge-line record.  Fields mirror the columns produced by
UPSInvoiceParser: numeric columns coerced with errors="coerce" and filled
with 0, date columns coerced to NaT on failure (none), string columns
stripped with "" and "nan" normalised to none.  total_charge, service_name,
charge_category_name and is_return are the derived columns. -/
structure Row where
  invoice_number : Option String
  invoice_date : Option Date
  shipment_date : Option Date
  order_reference : Option String
  tracking_number : Option String
  service_code : Option String
  charge_category : Option String
  charge_category_name : String
  charge_code : Option String
  charge_description : Option String
  currency : Option String
  package_indicator : Option String
  shipment_type : Option String
  shipment_subtype : Option String
  goods_description : Option String
  sender_name : Option String
  sender_city : Option String
  sender_country : Option String
  recipient_name : Option String
  recipient_company : Option String
  recipient_city : Option String
  recipient_country : Option String
  discount_amount : ℚ
  net_amount : ℚ
  total_charge : ℚ
  actual_weight : ℚ
  billed_weight : ℚ
  service_name : String
  is_return : Bool
  source_file : String
deriving DecidableEq, Inhabited

/-- SERVICE_CODES from parser.py (static service code → name table). -/
def SERVICE_CODES : List (String × String) :=
  [("007", "WW Express Saver"),
   ("704", "WW Standard"),
   ("004", "TB Standard"),
   ("003", "TB Standard"),
   ("005", "TB Standard"),
   ("031", "TB Standard"),
   ("041", "TB Standard"),
   ("000", "Address Correction"),
   ("353", "TB Standard Undeliverable Return"),
   ("354", "TB Standard Undeliverable Return"),
   ("355", "TB Standard Undeliverable Return"),
   ("402", "TB Standard Undeliverable Return"),
   ("755", "WW Standard Undeliverable Return"),
   ("857", "WW Express Saver Undeliverable Return"),
   ("001", "Dom. Standard")]

/-- SERVICE_CODES.get(service_code, "Other"); a missing service code
(None) is not a key of the dict, so it also yields the default. -/
def serviceCodeLookup (svc : Option String) : String :=
  match svc with
  | none => "Other"
  | some c => ((SERVICE_CODES.lookup c).getD "Other")

/-- Whitespace in the sense of str.strip(). -/
def wsChar (c : Char) : Bool :=
  decide (c = ' ') || decide (c = '\t') || decide (c = '\n') || decide (c = '\r')

/-- str.strip(): remove leading and trailing whitespace. -/
def strTrim (s : String) : String :=
  String.mk (((s.data.dropWhile wsChar).reverse.dropWhile wsChar).reverse)

/-- The service_name derivation from UPSInvoiceParser._add_derived_fields:
charge_description verbatim when the row is an FRT charge whose
description is present and truthy after stripping, else the static table
with default "Other". -/
def serviceNameOf (cat desc svc : Option String) : String :=
  if cat = some "FRT" then
    match desc with
    | some s => if strTrim s ≠ "" then s else serviceCodeLookup svc
    | none => serviceCodeLookup svc
  else serviceCodeLookup svc

/-- CHARGE_CATEGORIES from parser.py. -/
def CHARGE_CATEGORIES : List (String × String) :=
  [("FRT", "Freight"), ("FSC", "Fuel Surcharge"), ("TAX", "Tax (VAT)"),
   ("ACC", "Accessorial"), ("EXM", "Exemption/Credit"),
   ("INF", "Information Only"), ("MSC", "Miscellaneous"),
   ("BRK", "Brokerage"), ("GOV", "Government Charges"),
   ("DAS", "Delivery Area Surcharge"), ("RES", "Residential Surcharge")]

/-- charge_category.map(CHARGE_CATEGORIES).fillna("Other"). -/
def chargeCategoryNameOf (cat : Option String) : String :=
  match cat with
  | none => "Other"
  | some c => ((CHARGE_CATEGORIES.lookup c).getD "Other")

/- ----- shipment reconstruction (InvoiceAnalyzer._aggregate_packages) ----- -/

/-- One row of the derived shipment table (one per tracking number). -/
structure Package where
  tracking_number : String
  invoice_number : Option String
  invoice_date : Option Date
  shipment_date : Option Date
  order_reference : Option String
  service_code : Option String
  actual_weight : ℚ
  billed_weight : ℚ
  sender_name : Option String
  sender_city : Option String
  sender_country : Option String
  recipient_name : Option String
  recipient_company : Option String
  recipient_city : Option String
  recipient_country : Option String
  shipment_type : Option String
  shipment_subtype : Option String
  goods_description : Option String
  is_return : Bool
  source_file : String
  service_name : Option String
  discount_amount : ℚ
  net_amount : ℚ
  total_charge : ℚ
deriving DecidableEq, Inhabited

def isFrtPkg (r : Row) : Bool :=
  decide (r.package_indicator = some "1") && decide (r.charge_category = some "FRT")

def isPkg (r : Row) : Bool := decide (r.package_indicator = some "1")

/-- One shipment row for tracking number t: descriptive fields from the
first descriptor row for t (first of the FRT rows when useFrt, else first
of the package-indicator rows), monetary sums over ALL charge lines for t.
The left merge of the groupbys always finds t in the charge-total table,
because the descriptor rows are themselves charge lines of the dataset,
so the sums are taken directly. -/
def mkPackage (useFrt : Bool) (data base : List Row) (t : String) : Package :=
  let rep := (base.filter (fun r => decide (r.tracking_number = some t))).headI
  let lines := data.filter (fun r => decide (r.tracking_number = some t))
  { tracking_number := t
    invoice_number := rep.invoice_number
    invoice_date := rep.invoice_date
    shipment_date := rep.shipment_date
    order_reference := rep.order_reference
    service_code := rep.service_code
    actual_weight := rep.actual_weight
    billed_weight := rep.billed_weight
    sender_name := rep.sender_name
    sender_city := rep.sender_city
    sender_country := rep.sender_country
    recipient_name := rep.recipient_name
    recipient_company := rep.recipient_company
    recipient_city := rep.recipient_city
    recipient_country := rep.recipient_country
    shipment_type := rep.shipment_type
    shipment_subtype := rep.shipment_subtype
    goods_description := rep.goods_description
    is_return := rep.is_return
    source_file := rep.source_file
    service_name := if useFrt then rep.charge_description else some rep.service_name
    discount_amount := qsum Row.discount_amount lines
    net_amount := qsum Row.net_amount lines
    total_charge := qsum Row.total_charge lines }

/-- InvoiceAnalyzer._aggregate_packages: prefer FRT rows with
package_indicator 1 as descriptor rows; fall back to any
package-indicator-1 rows when no FRT descriptor exists; groupby drops
rows whose tracking number is absent. -/
def aggregatePackages (data : List Row) : List Package :=
  if data = [] then []
  else
    let frt := data.filter isFrtPkg
    let pkg := data.filter isPkg
    let base := if frt = [] then pkg else frt
    let keys := dedupKeepFirst (base.filterMap Row.tracking_number)
    keys.map (mkPackage (decide (frt ≠ [])) data base)

/- ----- rollup result rows ----- -/

structure CostRow where
  charge_category : String
  charge_category_name : String
  discount_amount : ℚ
  net_amount : ℚ
  total_charge : ℚ
  percentage : ℚ
deriving DecidableEq

structure DestRow where
  country_code : String
  package_count : ℕ
  total_cost : ℚ
  total_weight : ℚ
  return_count : ℕ
  country_name : String
  avg_cost_per_package : ℚ
  return_rate : ℚ
deriving DecidableEq

structure TrendRow where
  period : String
  package_count : ℕ
  total_cost : ℚ
  total_weight : ℚ
  avg_cost_per_package : ℚ
deriving DecidableEq

structure RetSummary where
  total_returns : ℕ
  total_return_cost : ℚ
  return_rate : ℚ
  avg_return_cost : ℚ
deriving DecidableEq

structure ReasonRow where
  reason : String
  count : ℕ
  total_cost : ℚ
deriving DecidableEq

structure RetCountryRow where
  country_code : String
  return_count : ℕ
  return_cost : ℚ
deriving DecidableEq

structure ReturnsResult where
  summary : Option RetSummary
  by_reason : List ReasonRow
  by_country : List RetCountryRow
deriving DecidableEq

structure WeightSummary where
  total_actual_weight : ℚ
  total_billed_weight : ℚ
  avg_actual_weight : ℚ
  avg_billed_weight : ℚ
  weight_premium : ℚ
  packages_with_dim_weight : ℕ
deriving DecidableEq

structure DistRow where
  weight_range : String
  package_count : ℕ
  total_cost : ℚ
deriving DecidableEq

structure WeightDetailRow where
  tracking_number : String
  actual_weight : ℚ
  billed_weight : ℚ
  weight_diff : ℚ
deriving DecidableEq

structure WeightsResult where
  summary : Option WeightSummary
  distribution : List DistRow
  detail : List WeightDetailRow
deriving DecidableEq

structure ServiceRow where
  service_code : String
  service_name : String
  package_count : ℕ
  total_cost : ℚ
  total_weight : ℚ
  avg_cost_per_package : ℚ
deriving DecidableEq

structure DutySummary where
  total_cost : ℚ
  shipment_count : ℕ
  brokerage_cost : ℚ
  customs_cost : ℚ
  other_cost : ℚ
  avg_cost_per_shipment : ℚ
deriving DecidableEq

structure DutyChargeRow where
  charge_category : String
  charge_name : String
  total_cost : ℚ
  shipment_count : ℕ
deriving DecidableEq

structure DutyCountryRow where
  country_code : String
  shipment_count : ℕ
  total_cost : ℚ
  country_name : String
  avg_cost_per_shipment : ℚ
deriving DecidableEq

/-- Intermediate per-tracking aggregation of the IMP subset
(country_data in analyze_duties_and_brokerage). -/
structure DutyTrackingRow where
  tracking_number : String
  recipient_country : Option String
  recipient_name : Option String
  recipient_city : Option String
  order_reference : Option String
  shipment_date : Option Date
  net_amount : ℚ
deriving DecidableEq

structure DutyDetailRow where
  tracking_number : String
  country : Option String
  recipient : Option String
  city : Option String
  order_reference : Option String
  shipment_date : Option Date
  total_cost : ℚ
  brk : ℚ
  gov : ℚ
deriving DecidableEq

structure DutiesResult where
  summary : Option DutySummary
  by_charge_type : List DutyChargeRow
  by_country : List DutyCountryRow
  detail : List DutyDetailRow
deriving DecidableEq

structure AccSummary where
  total_cost : ℚ
  charge_count : ℕ
  shipment_count : ℕ
  residential_cost : ℚ
  surge_cost : ℚ
  area_surcharge_cost : ℚ
  avg_per_shipment : ℚ
deriving DecidableEq

structure AccCodeRow where
  charge_code : String
  description : String
  total_cost : ℚ
  shipment_count : ℕ
deriving DecidableEq

structure AccCountryRow where
  country_code : String
  shipment_count : ℕ
  total_cost : ℚ
  country_name : String
  avg_per_shipment : ℚ
deriving DecidableEq

structure AccTrendRow where
  period : String
  total_cost : ℚ
  shipment_count : ℕ
deriving DecidableEq

structure AccResult where
  summary : Option AccSummary
  by_charge_code : List AccCodeRow
  by_country : List AccCountryRow
  trends : List AccTrendRow
deriving DecidableEq

structure TopRow where
  tracking_number : String
  order_reference : Option String
  shipment_date : Option Date
  recipient_name : Option String
  recipient_company : Option String
  recipient_city : Option String
  recipient_country : Option String
  sender_name : Option String
  sender_country : Option String
  service_name : Option String
  billed_weight : ℚ
  goods_description : Option String
  total_charge : ℚ
  shipment_type : Option String
  is_return : Bool
deriving DecidableEq

structure AnalysisSummary where
  total_invoices : ℕ
  total_packages : ℕ
  total_cost : ℚ
  total_freight : ℚ
  total_fuel_surcharge : ℚ
  total_tax : ℚ
  total_accessorial : ℚ
  avg_cost_per_package : ℚ
  total_weight_kg : ℚ
  date_range : Option (String × String)
  top_destination_country : Option String
  return_rate : ℚ
  currency : String
deriving DecidableEq

/- ----- rollups (each a pure function of the charge-line table) ----- -/

/-- Pair key for groupby(["charge_category", "charge_category_name"]);
rows with an absent charge_category are dropped by the groupby. -/
def catKey (r : Row) : Option (String × String) :=
  r.charge_category.map (fun c => (c, r.charge_category_name))

/-- The grouped rows of analyze_cost_breakdown, before the percentage
column and the sort. -/
def costRowsOf (data : List Row) : List CostRow :=
  (dedupKeepFirst (data.filterMap catKey)).map (fun k =>
    { charge_category := k.1
      charge_category_name := k.2
      discount_amount := qsum Row.discount_amount
        (data.filter (fun r => decide (catKey r = some k)))
      net_amount := qsum Row.net_amount
        (data.filter (fun r => decide (catKey r = some k)))
      total_charge := qsum Row.total_charge
        (data.filter (fun r => decide (catKey r = some k)))
      percentage := 0 })

/-- InvoiceAnalyzer.analyze_cost_breakdown. -/
def analyzeCostBreakdown (data : List Row) : List CostRow :=
  if data = [] then []
  else
    sortBy (fun a b => decide (b.total_charge < a.total_charge))
      ((costRowsOf data).map (fun cr =>
        { cr with percentage :=
            round2 (cr.total_charge
              / qsum CostRow.total_charge (costRowsOf data) * 100) }))

/-- InvoiceAnalyzer.analyze_by_destination over a given shipment table
(no pycountry: country_name falls back to the code). -/
def destinationFrom (ps : List Package) : List DestRow :=
  if ps = [] then []
  else
    let valid := ps.filter (fun p => decide (p.recipient_country ≠ none))
    if valid = [] then []
    else
      let keys := dedupKeepFirst (valid.filterMap Package.recipient_country)
      let rows := keys.map (fun c =>
        let g := valid.filter (fun p => decide (p.recipient_country = some c))
        { country_code := c
          package_count := g.length
          total_cost := qsum Package.total_charge g
          total_weight := qsum Package.billed_weight g
          return_count := (g.filter Package.is_return).length
          country_name := c
          avg_cost_per_package := round2 (qsum Package.total_charge g / g.length)
          return_rate :=
            round2 (((g.filter Package.is_return).length : ℚ) / g.length * 100) })
      sortBy (fun a b => decide (b.total_cost < a.total_cost)) rows

def analyzeByDestination (data : List Row) : List DestRow :=
  destinationFrom (aggregatePackages data)

/-- The period label: strftime %Y-W%W for "week", %Y-%m otherwise. -/
def periodLabel (period : String) (d : Date) : String :=
  if period = "week" then weekLabel d else monthLabel d

def trendLabel (period : String) (p : Package) : String :=
  periodLabel period (p.shipment_date.getD default)

/-- The dated subset of the shipment table (dropna on shipment_date). -/
def datedOf (ps : List Package) : List Package :=
  ps.filter (fun p => decide (p.shipment_date ≠ none))

/-- The grouped rows of analyze_trends, before the sort. -/
def trendRowsOf (dated : List Package) (period : String) : List TrendRow :=
  (dedupKeepFirst (dated.map (trendLabel period))).map (fun k =>
    { period := k
      package_count :=
        (dated.filter (fun p => decide (trendLabel period p = k))).length
      total_cost := qsum Package.total_charge
        (dated.filter (fun p => decide (trendLabel period p = k)))
      total_weight := qsum Package.billed_weight
        (dated.filter (fun p => decide (trendLabel period p = k)))
      avg_cost_per_package :=
        round2 (qsum Package.total_charge
            (dated.filter (fun p => decide (trendLabel period p = k)))
          / ((dated.filter
              (fun p => decide (trendLabel period p = k))).length : ℚ)) })

/-- InvoiceAnalyzer.analyze_trends over a given shipment table. -/
def trendsFrom (ps : List Package) (period : String) : List TrendRow :=
  if ps = [] then []
  else if datedOf ps = [] then []
  else
    sortBy (fun a b => strLt a.period b.period) (trendRowsOf (datedOf ps) period)

def analyzeTrends (data : List Row) (period : String) : List TrendRow :=
  trendsFrom (aggregatePackages data) period

/-- The return rows of the shipment table. -/
def retsOf (ps : List Package) : List Package := ps.filter Package.is_return

/-- The summary dict of analyze_returns (in the non-empty case). -/
def retSummaryOf (ps : List Package) : RetSummary :=
  { total_returns := (retsOf ps).length
    total_return_cost := qsum Package.total_charge (retsOf ps)
    return_rate := ((retsOf ps).length : ℚ) / (ps.length : ℚ) * 100
    avg_return_cost :=
      qsum Package.total_charge (retsOf ps) / ((retsOf ps).length : ℚ) }

/-- The by-subtype (proxy reason) table of analyze_returns. -/
def byReasonOf (rets : List Package) : List ReasonRow :=
  sortBy (fun a b => decide (b.count < a.count))
    ((dedupKeepFirst (rets.filterMap Package.shipment_subtype)).map (fun s =>
      { reason := s
        count := (rets.filter
          (fun p => decide (p.shipment_subtype = some s))).length
        total_cost := qsum Package.total_charge
          (rets.filter (fun p => decide (p.shipment_subtype = some s))) }))

/-- The by-sender-country table of analyze_returns. -/
def retByCountryOf (rets : List Package) : List RetCountryRow :=
  sortBy (fun a b => decide (b.return_count < a.return_count))
    ((dedupKeepFirst (rets.filterMap Package.sender_country)).map (fun c =>
      { country_code := c
        return_count := (rets.filter
          (fun p => decide (p.sender_country = some c))).length
        return_cost := qsum Package.total_charge
          (rets.filter (fun p => decide (p.sender_country = some c))) }))

/-- InvoiceAnalyzer.analyze_returns over a given shipment table
(no pycountry: the by-country table carries no country_name column). -/
def returnsFrom (ps : List Package) : ReturnsResult :=
  if ps = [] then ⟨none, [], []⟩
  else if retsOf ps = [] then ⟨none, [], []⟩
  else
    ⟨some (retSummaryOf ps), byReasonOf (retsOf ps), retByCountryOf (retsOf ps)⟩

def analyzeReturns (data : List Row) : ReturnsResult :=
  returnsFrom (aggregatePackages data)

/-- pd.cut with bins [0, 0.5, 1, 2, 5, 10, 20, 50, inf]: right-closed
intervals that exclude the leftmost edge, so a weight of exactly 0 (or a
negative weight) falls in no bucket (NaN). -/
def bucketOf (w : ℚ) : Option String :=
  if w ≤ 0 then none
  else if w ≤ 1/2 then some "0-0.5kg"
  else if w ≤ 1 then some "0.5-1kg"
  else if w ≤ 2 then some "1-2kg"
  else if w ≤ 5 then some "2-5kg"
  else if w ≤ 10 then some "5-10kg"
  else if w ≤ 20 then some "10-20kg"
  else if w ≤ 50 then some "20-50kg"
  else some "50kg+"

def weightLabels : List String :=
  ["0-0.5kg", "0.5-1kg", "1-2kg", "2-5kg", "5-10kg", "10-20kg", "20-50kg", "50kg+"]

/-- The weight-filtered subset of the shipment table. -/
def weightSubset (ps : List Package) : List Package :=
  ps.filter (fun p => decide (0 < p.billed_weight) || decide (0 < p.actual_weight))

/-- The summary dict of analyze_weights (over the weight subset). -/
def weightSummaryOf (wd : List Package) : WeightSummary :=
  { total_actual_weight := qsum Package.actual_weight wd
    total_billed_weight := qsum Package.billed_weight wd
    avg_actual_weight := qsum Package.actual_weight wd / (wd.length : ℚ)
    avg_billed_weight := qsum Package.billed_weight wd / (wd.length : ℚ)
    weight_premium :=
      if 0 < qsum Package.actual_weight wd then
        (qsum Package.billed_weight wd - qsum Package.actual_weight wd)
          / qsum Package.actual_weight wd * 100
      else 0
    packages_with_dim_weight :=
      (wd.filter (fun p =>
        decide (0 < p.billed_weight - p.actual_weight))).length }

/-- The bucket distribution of analyze_weights: groupby on the pd.cut
categorical with observed=True, so present buckets appear in bin order
and the NaN bucket is dropped. -/
def distributionOf (wd : List Package) : List DistRow :=
  (weightLabels.filter (fun lb =>
    wd.any (fun p => decide (bucketOf p.billed_weight = some lb)))).map (fun lb =>
      { weight_range := lb
        package_count := (wd.filter
          (fun p => decide (bucketOf p.billed_weight = some lb))).length
        total_cost := qsum Package.total_charge
          (wd.filter (fun p => decide (bucketOf p.billed_weight = some lb))) })

/-- The per-shipment weight detail table of analyze_weights. -/
def weightDetailOf (wd : List Package) : List WeightDetailRow :=
  wd.map (fun p =>
    { tracking_number := p.tracking_number
      actual_weight := p.actual_weight
      billed_weight := p.billed_weight
      weight_diff := p.billed_weight - p.actual_weight })

/-- InvoiceAnalyzer.analyze_weights over a given shipment table. -/
def weightsFrom (ps : List Package) : WeightsResult :=
  if ps = [] then ⟨none, [], []⟩
  else if weightSubset ps = [] then ⟨none, [], []⟩
  else
    ⟨some (weightSummaryOf (weightSubset ps)), distributionOf (weightSubset ps),
      weightDetailOf (weightSubset ps)⟩

def analyzeWeights (data : List Row) : WeightsResult :=
  weightsFrom (aggregatePackages data)

/-- Pair key for groupby(["service_code", "service_name"]); rows where
either key is absent are dropped by the groupby. -/
def svcKey (p : Package) : Option (String × String) :=
  match p.service_code, p.service_name with
  | some a, some b => some (a, b)
  | _, _ => none

/-- InvoiceAnalyzer.analyze_services over a given shipment table. -/
def servicesFrom (ps : List Package) : List ServiceRow :=
  if ps = [] then []
  else
    let keys := dedupKeepFirst (ps.filterMap svcKey)
    sortBy (fun a b => decide (b.total_cost < a.total_cost))
      (keys.map (fun k =>
        let g := ps.filter (fun p => decide (svcKey p = some k))
        { service_code := k.1
          service_name := k.2
          package_count := g.length
          total_cost := qsum Package.total_charge g
          total_weight := qsum Package.billed_weight g
          avg_cost_per_package :=
            round2 (qsum Package.total_charge g / (g.length : ℚ)) }))

def analyzeServices (data : List Row) : List ServiceRow :=
  servicesFrom (aggregatePackages data)

/-- InvoiceAnalyzer.analyze_duties_and_brokerage.  The per-tracking BRK
and GOV columns come from a pivot_table with fill_value 0 left-merged on
tracking number; when no BRK (resp. GOV) charge exists anywhere in the
IMP subset the code substitutes the constant 0, which coincides with the
per-tracking sum, so the sums are taken directly. -/
def analyzeDutiesAndBrokerage (data : List Row) : DutiesResult :=
  if data = [] then ⟨none, [], [], []⟩
  else
    let imp := data.filter (fun r => decide (r.shipment_subtype = some "IMP"))
    if imp = [] then ⟨none, [], [], []⟩
    else
      let impTrackings := (imp.map Row.tracking_number).dedup
      let total := qsum Row.net_amount imp
      let brkTotal := qsum Row.net_amount
        (imp.filter (fun r => decide (r.charge_category = some "BRK")))
      let govTotal := qsum Row.net_amount
        (imp.filter (fun r => decide (r.charge_category = some "GOV")))
      let summary : DutySummary :=
        { total_cost := total
          shipment_count := impTrackings.length
          brokerage_cost := brkTotal
          customs_cost := govTotal
          other_cost := total - brkTotal - govTotal
          avg_cost_per_shipment :=
            if 0 < impTrackings.length then total / (impTrackings.length : ℚ)
            else 0 }
      let by_charge_type := sortBy (fun a b => decide (b.total_cost < a.total_cost))
        ((dedupKeepFirst (imp.filterMap catKey)).map (fun k =>
          let g := imp.filter (fun r => decide (catKey r = some k))
          { charge_category := k.1
            charge_name := k.2
            total_cost := qsum Row.net_amount g
            shipment_count := (g.filterMap Row.tracking_number).dedup.length }))
      let tkeys := dedupKeepFirst (imp.filterMap Row.tracking_number)
      let countryData : List DutyTrackingRow := tkeys.map (fun t =>
        let g := imp.filter (fun r => decide (r.tracking_number = some t))
        let rep := g.headI
        { tracking_number := t
          recipient_country := rep.recipient_country
          recipient_name := rep.recipient_name
          recipient_city := rep.recipient_city
          order_reference := rep.order_reference
          shipment_date := rep.shipment_date
          net_amount := qsum Row.net_amount g })
      let ckeys := dedupKeepFirst (countryData.filterMap DutyTrackingRow.recipient_country)
      let by_country := sortBy (fun a b => decide (b.total_cost < a.total_cost))
        (ckeys.map (fun c =>
          let g := countryData.filter (fun x => decide (x.recipient_country = some c))
          { country_code := c
            shipment_count := g.length
            total_cost := qsum DutyTrackingRow.net_amount g
            country_name := c
            avg_cost_per_shipment :=
              round2 (qsum DutyTrackingRow.net_amount g / (g.length : ℚ)) }))
      let detail := sortBy (fun a b => decide (b.total_cost < a.total_cost))
        (countryData.map (fun x =>
          { tracking_number := x.tracking_number
            country := x.recipient_country
            recipient := x.recipient_name
            city := x.recipient_city
            order_reference := x.order_reference
            shipment_date := x.shipment_date
            total_cost := x.net_amount
            brk := qsum Row.net_amount (imp.filter (fun r =>
              decide (r.tracking_number = some x.tracking_number) &&
              decide (r.charge_category = some "BRK")))
            gov := qsum Row.net_amount (imp.filter (fun r =>
              decide (r.tracking_number = some x.tracking_number) &&
              decide (r.charge_category = some "GOV"))) }))
      ⟨some summary, by_charge_type, by_country, detail⟩

/-- Pair key for groupby(["charge_code", "charge_description"]). -/
def accKey (r : Row) : Option (String × String) :=
  match r.charge_code, r.charge_description with
  | some a, some b => some (a, b)
  | _, _ => none

/-- First non-absent recipient country among the rows carrying tracking
number t, over the full charge-line table. -/
def firstCountry (data : List Row) (t : String) : Option String :=
  ((data.filter (fun r =>
    decide (r.recipient_country ≠ none) &&
    decide (r.tracking_number = some t))).head?).bind Row.recipient_country

/-- InvoiceAnalyzer.analyze_accessorials. -/
def analyzeAccessorials (data : List Row) : AccResult :=
  if data = [] then ⟨none, [], [], []⟩
  else
    let acc := data.filter (fun r => decide (r.charge_category = some "ACC"))
    if acc = [] then ⟨none, [], [], []⟩
    else
      let total := qsum Row.net_amount acc
      let uniq := (acc.filterMap Row.tracking_number).dedup.length
      let summary : AccSummary :=
        { total_cost := total
          charge_count := acc.length
          shipment_count := uniq
          residential_cost := qsum Row.net_amount
            (acc.filter (fun r => decide (r.charge_code = some "RES")))
          surge_cost := qsum Row.net_amount
            (acc.filter (fun r =>
              decide (r.charge_code = some "PFR") ||
              decide (r.charge_code = some "PFC")))
          area_surcharge_cost := qsum Row.net_amount
            (acc.filter (fun r =>
              decide (r.charge_code = some "RDS") ||
              decide (r.charge_code = some "ESD") ||
              decide (r.charge_code = some "LDS") ||
              decide (r.charge_code = some "HIS") ||
              decide (r.charge_code = some "AKS")))
          avg_per_shipment := if 0 < uniq then total / (uniq : ℚ) else 0 }
      let by_charge_code := sortBy (fun a b => decide (b.total_cost < a.total_cost))
        ((dedupKeepFirst (acc.filterMap accKey)).map (fun k =>
          let g := acc.filter (fun r => decide (accKey r = some k))
          { charge_code := k.1
            description := k.2
            total_cost := qsum Row.net_amount g
            shipment_count := (g.filterMap Row.tracking_number).dedup.length }))
      let atKeys := dedupKeepFirst (acc.filterMap Row.tracking_number)
      let merged := atKeys.map (fun t =>
        (firstCountry data t,
         qsum Row.net_amount (acc.filter (fun r =>
           decide (r.tracking_number = some t)))))
      let ckeys := dedupKeepFirst (merged.filterMap Prod.fst)
      let by_country := sortBy (fun a b => decide (b.total_cost < a.total_cost))
        (ckeys.map (fun c =>
          let g := merged.filter (fun x => decide (x.1 = some c))
          { country_code := c
            shipment_count := g.length
            total_cost := qsum Prod.snd g
            country_name := c
            avg_per_shipment := round2 (qsum Prod.snd g / (g.length : ℚ)) }))
      let dated := acc.filter (fun r => decide (r.shipment_date ≠ none))
      let trends :=
        if dated = [] then []
        else
          let lbl := fun (r : Row) => monthLabel (r.shipment_date.getD default)
          let pkeys := dedupKeepFirst (dated.map lbl)
          sortBy (fun a b => strLt a.period b.period)
            (pkeys.map (fun k =>
              let g := dated.filter (fun r => decide (lbl r = k))
              { period := k
                total_cost := qsum Row.net_amount g
                shipment_count := (g.filterMap Row.tracking_number).dedup.length }))
      ⟨some summary, by_charge_code, by_country, trends⟩

/-- Column projection applied by get_top_expenses (all the desired
columns exist on the shipment table). -/
def topRowOf (p : Package) : TopRow :=
  { tracking_number := p.tracking_number
    order_reference := p.order_reference
    shipment_date := p.shipment_date
    recipient_name := p.recipient_name
    recipient_company := p.recipient_company
    recipient_city := p.recipient_city
    recipient_country := p.recipient_country
    sender_name := p.sender_name
    sender_country := p.sender_country
    service_name := p.service_name
    billed_weight := p.billed_weight
    goods_description := p.goods_description
    total_charge := p.total_charge
    shipment_type := p.shipment_type
    is_return := p.is_return }

/-- DataFrame.nlargest(n, "total_charge") with keep="first": stable
descending sort, first n rows. -/
def topFrom (ps : List Package) (n : ℕ) : List TopRow :=
  if ps = [] then []
  else
    ((sortBy (fun a b => decide (b.total_charge < a.total_charge)) ps).take n).map
      topRowOf

def getTopExpenses (data : List Row) (n : ℕ) : List TopRow :=
  topFrom (aggregatePackages data) n

/-- value_counts on recipient_country: most frequent first (NaN dropped);
pandas leaves the order of tied counts unspecified, and nothing proved
here observes it. -/
def topDestOf (ps : List Package) : Option String :=
  let cs := ps.filterMap Package.recipient_country
  let keys := dedupKeepFirst cs
  (sortBy (fun a b => decide (cs.count b < cs.count a)) keys).head?

/-- InvoiceAnalyzer.get_summary over a given shipment table. -/
def summaryFrom (data : List Row) (ps : List Package) : AnalysisSummary :=
  let catTotal := fun (c : String) => qsum Row.total_charge
    (data.filter (fun r => decide (r.charge_category = some c)))
  let validDates := data.filterMap Row.shipment_date
  let dateRange :=
    match validDates with
    | [] => none
    | d :: ds => some (dateStr (ds.foldl dateMin d), dateStr (ds.foldl dateMax d))
  { total_invoices := (data.filterMap Row.invoice_number).dedup.length
    total_packages := ps.length
    total_cost := qsum Package.total_charge ps
    total_freight := catTotal "FRT"
    total_fuel_surcharge := catTotal "FSC"
    total_tax := catTotal "TAX"
    total_accessorial := catTotal "ACC"
    avg_cost_per_package :=
      if 0 < ps.length then qsum Package.total_charge ps / (ps.length : ℚ) else 0
    total_weight_kg := qsum Package.billed_weight ps
    date_range := dateRange
    top_destination_country := topDestOf ps
    return_rate :=
      if 0 < ps.length then
        ((ps.filter Package.is_return).length : ℚ) / (ps.length : ℚ) * 100
      else 0
    currency := ((data.filterMap Row.currency).head?).getD "EUR" }

def emptySummary : AnalysisSummary :=
  { total_invoices := 0, total_packages := 0, total_cost := 0,
    total_freight := 0, total_fuel_surcharge := 0, total_tax := 0,
    total_accessorial := 0, avg_cost_per_package := 0, total_weight_kg := 0,
    date_range := none, top_destination_country := none, return_rate := 0,
    currency := "EUR" }

def getSummary (data : List Row) : AnalysisSummary :=
  if data = [] then emptySummary
  else summaryFrom data (aggregatePackages data)

/-- Date-range stage of filter_data: shipment_date >= start_date; a NaT
shipment date compares False against the bound. -/
def dateFilterStart (startDate : Option Date) (l : List Row) : List Row :=
  match startDate with
  | some s => l.filter (fun r =>
      match r.shipment_date with
      | some d => dateLe s d
      | none => false)
  | none => l

/-- Date-range stage of filter_data: shipment_date <= end_date. -/
def dateFilterEnd (endDate : Option Date) (l : List Row) : List Row :=
  match endDate with
  | some e => l.filter (fun r =>
      match r.shipment_date with
      | some d => dateLe d e
      | none => false)
  | none => l

/-- Destination-country stage of filter_data; an empty list is falsy in
Python, so it applies no filter. -/
def countryFilter (countries : Option (List String)) (l : List Row) : List Row :=
  match countries with
  | some (c :: cs) => l.filter (fun r =>
      (c :: cs).any (fun x => decide (r.recipient_country = some x)))
  | _ => l

/-- Service-code stage of filter_data; an empty list applies no filter. -/
def serviceFilter (services : Option (List String)) (l : List Row) : List Row :=
  match services with
  | some (s :: ss) => l.filter (fun r =>
      (s :: ss).any (fun x => decide (r.service_code = some x)))
  | _ => l

/-- Returns-only stage of filter_data. -/
def returnsFilter (returnsOnly : Bool) (l : List Row) : List Row :=
  if returnsOnly then l.filter Row.is_return else l

/-- InvoiceAnalyzer.filter_data: the four predicate stages applied in the
order the method applies them. -/
def filterData (data : List Row) (startDate endDate : Option Date)
    (countries services : Option (List String)) (returnsOnly : Bool) :
    List Row :=
  returnsFilter returnsOnly
    (serviceFilter services
      (countryFilter countries
        (dateFilterEnd endDate
          (dateFilterStart startDate data))))

/- ----- derived totals used by the reconciliation properties ----- -/

def chargeTotal (data : List Row) : ℚ := qsum Row.total_charge data

def shipmentTotal (data : List Row) : ℚ :=
  qsum Package.total_charge (aggregatePackages data)

def costBreakdownTotal (data : List Row) : ℚ :=
  qsum CostRow.total_charge (analyzeCostBreakdown data)

def distCountSum (l : List DistRow) : ℕ := (l.map DistRow.package_count).sum

/-- The total_returns count reported by analyze_returns; an empty summary
dict reports no returns, i.e. zero. -/
def returnsReported (data : List Row) : ℕ :=
  match (analyzeReturns data).summary with
  | some s => s.total_returns
  | none => 0

/- ----- weight-bucket intervals (comparison definitions) ----- -/

/-- Membership of a billed weight in the (left-open, right-closed)
interval named by a bucket label: the comparison definition for the
partition property of the weight distribution. -/
def bucketMem (lb : String) (w : ℚ) : Prop :=
  (lb = "0-0.5kg" ∧ 0 < w ∧ w ≤ 1/2) ∨
  (lb = "0.5-1kg" ∧ 1/2 < w ∧ w ≤ 1) ∨
  (lb = "1-2kg" ∧ 1 < w ∧ w ≤ 2) ∨
  (lb = "2-5kg" ∧ 2 < w ∧ w ≤ 5) ∨
  (lb = "5-10kg" ∧ 5 < w ∧ w ≤ 10) ∨
  (lb = "10-20kg" ∧ 10 < w ∧ w ≤ 20) ∨
  (lb = "20-50kg" ∧ 20 < w ∧ w ≤ 50) ∨
  (lb = "50kg+" ∧ 50 < w)

/- ----- engine state (the private shipment-table cache) ----- -/

/-- An InvoiceAnalyzer instance: the wrapped charge-line dataset and the
private _packages cache. -/
structure EngineState where
  data : List Row
  cache : Option (List Package)
deriving DecidableEq

/-- The packages property: fill the cache on first access. -/
def runPackages (s : EngineState) : EngineState × List Package :=
  match s.cache with
  | some p => (s, p)
  | none => (⟨s.data, some (aggregatePackages s.data)⟩, aggregatePackages s.data)

/-- get_summary as a state transformer (the empty-data early return does
not touch the packages property). -/
def getSummaryM (s : EngineState) : EngineState × AnalysisSummary :=
  if s.data = [] then (s, emptySummary)
  else
    let sp := runPackages s
    (sp.1, summaryFrom s.data sp.2)

def analyzeCostBreakdownM (s : EngineState) : EngineState × List CostRow :=
  (s, analyzeCostBreakdown s.data)

def analyzeByDestinationM (s : EngineState) : EngineState × List DestRow :=
  let sp := runPackages s
  (sp.1, destinationFrom sp.2)

def analyzeTrendsM (s : EngineState) (period : String) :
    EngineState × List TrendRow :=
  let sp := runPackages s
  (sp.1, trendsFrom sp.2 period)

def analyzeReturnsM (s : EngineState) : EngineState × ReturnsResult :=
  let sp := runPackages s
  (sp.1, returnsFrom sp.2)

def analyzeWeightsM (s : EngineState) : EngineState × WeightsResult :=
  let sp := runPackages s
  (sp.1, weightsFrom sp.2)

def analyzeServicesM (s : EngineState) : EngineState × List ServiceRow :=
  let sp := runPackages s
  (sp.1, servicesFrom sp.2)

def analyzeDutiesAndBrokerageM (s : EngineState) : EngineState × DutiesResult :=
  (s, analyzeDutiesAndBrokerage s.data)

def analyzeAccessorialsM (s : EngineState) : EngineState × AccResult :=
  (s, analyzeAccessorials s.data)

def getTopExpensesM (s : EngineState) (n : ℕ) : EngineState × List TopRow :=
  let sp := runPackages s
  (sp.1, topFrom sp.2 n)

/-- filter_data builds a fresh engine (with an empty cache) and leaves
the receiver untouched. -/
def filterDataM (s : EngineState) (startDate endDate : Option Date)
    (countries services : Option (List String)) (returnsOnly : Bool) :
    EngineState × EngineState :=
  (s, ⟨filterData s.data startDate endDate countries services returnsOnly, none⟩)

/-- The frame condition of claim C8: the wrapped dataset is unchanged and
the cache is unchanged except for the one-time fill with the aggregation
of that dataset. -/
def cacheFrame (s t : EngineState) : Prop :=
  t.data = s.data ∧
    (t.cache = s.cache ∨
      (s.cache = none ∧ t.cache = some (aggregatePackages s.data)))

/- ----- concrete datasets for counterexamples and witnesses ----- -/

/-- A baseline charge-line record; concrete datasets below override the
fields they care about. -/
def rowBase : Row :=
  { invoice_number := none
    invoice_date := none
    shipment_date := none
    order_reference := none
    tracking_number := none
    service_code := none
    charge_category := none
    charge_category_name := "Other"
    charge_code := none
    charge_description := none
    currency := none
    package_indicator := none
    shipment_type := none
    shipment_subtype := none
    goods_description := none
    sender_name := none
    sender_city := none
    sender_country := none
    recipient_name := none
    recipient_company := none
    recipient_city := none
    recipient_country := none
    discount_amount := 0
    net_amount := 0
    total_charge := 0
    actual_weight := 0
    billed_weight := 0
    service_name := "Other"
    is_return := false
    source_file := "test.csv" }

/-- C1: one charge-only line (package_indicator 0) carrying 5 units of
money; its tracking number owns no descriptor row, so the shipment table
is empty and the money is dropped. -/
def dataC1 : List Row :=
  [{ rowBase with
      tracking_number := some "1Z001"
      package_indicator := some "0"
      charge_category := some "ACC"
      charge_category_name := "Accessorial"
      net_amount := 5
      total_charge := 5 }]

/-- C1 witness: one freight descriptor row carrying 7 units. -/
def dataW1 : List Row :=
  [{ rowBase with
      tracking_number := some "1Z002"
      package_indicator := some "1"
      charge_category := some "FRT"
      charge_category_name := "Freight"
      charge_description := some "TB Standard"
      net_amount := 7
      total_charge := 7 }]

/-- C2: a shipment whose billed weight is exactly 0 with positive actual
weight: it is in the weight-filtered subset but pd.cut assigns no
bucket. -/
def dataC2 : List Row :=
  [{ rowBase with
      tracking_number := some "1Z003"
      package_indicator := some "1"
      charge_category := some "FRT"
      actual_weight := 1
      billed_weight := 0
      net_amount := 2
      total_charge := 2 }]

/-- C2 witness: one shipment with billed weight 3. -/
def dataW2 : List Row :=
  [{ rowBase with
      tracking_number := some "1Z004"
      package_indicator := some "1"
      charge_category := some "FRT"
      actual_weight := 2
      billed_weight := 3
      net_amount := 2
      total_charge := 2 }]

/-- C3: two shipments shipped 2020-12-31 and 2021-01-01.  Both days lie
in ISO week 2020-W53, yet strftime %W labels them 2020-W52 and
2021-W00. -/
def dataC3 : List Row :=
  [{ rowBase with
      tracking_number := some "1Z005"
      package_indicator := some "1"
      charge_category := some "FRT"
      shipment_date := some ⟨2020, 12, 31⟩
      net_amount := 1
      total_charge := 1 },
   { rowBase with
      tracking_number := some "1Z006"
      package_indicator := some "1"
      charge_category := some "FRT"
      shipment_date := some ⟨2021, 1, 1⟩
      net_amount := 1
      total_charge := 1 }]

/-- C3 witness: one dated shipment. -/
def dataW3 : List Row :=
  [{ rowBase with
      tracking_number := some "1Z007"
      package_indicator := some "1"
      charge_category := some "FRT"
      shipment_date := some ⟨2024, 1, 1⟩
      net_amount := 4
      total_charge := 4 }]

/-- C5: tracking 1Z008 has two freight descriptor rows whose return
flags disagree; the first (non-return) one is the representative, so the
unfiltered engine reports zero returns, while filtering on the return
flag leaves a one-row shipment table. -/
def dataC5 : List Row :=
  [{ rowBase with
      tracking_number := some "1Z008"
      package_indicator := some "1"
      charge_category := some "FRT"
      is_return := false
      net_amount := 1
      total_charge := 1 },
   { rowBase with
      tracking_number := some "1Z008"
      package_indicator := some "1"
      charge_category := some "FRT"
      shipment_type := some "RTN"
      is_return := true
      net_amount := 2
      total_charge := 2 }]

/-- C5 witness: a single returned shipment with a freight descriptor
row. -/
def dataW5 : List Row :=
  [{ rowBase with
      tracking_number := some "1Z009"
      package_indicator := some "1"
      charge_category := some "FRT"
      shipment_type := some "RTN"
      is_return := true
      net_amount := 3
      total_charge := 3 }]

/-- C9 witness: one outbound row, no IMP subtype anywhere. -/
def dataW9 : List Row :=
  [{ rowBase with
      tracking_number := some "1Z010"
      shipment_subtype := some "SHP"
      net_amount := 1
      total_charge := 1 }]

/-- C10 witness: one dated row and one row with an absent shipment
date. -/
def dataW10 : List Row :=
  [{ rowBase with
      tracking_number := some "1Z011"
      shipment_date := some ⟨2024, 3, 5⟩
      net_amount := 1
      total_charge := 1 },
   { rowBase with
      tracking_number := some "1Z012"
      shipment_date := none
      net_amount := 2
      total_charge := 2 }]

/- ----- helper lemmas: lists, sorting, partitions ----- -/

theorem headI_mem {α : Type} [Inhabited α] {l : List α} (h : l ≠ []) :
    l.headI ∈ l := by
  cases l with
  | nil => exact absurd rfl h
  | cons a t => exact List.mem_cons_self a t

theorem mem_dedupKeepFirst {κ : Type} [DecidableEq κ] {a : κ} {l : List κ} :
    a ∈ dedupKeepFirst l ↔ a ∈ l := by
  simp [dedupKeepFirst]

theorem nodup_dedupKeepFirst {κ : Type} [DecidableEq κ] (l : List κ) :
    (dedupKeepFirst l).Nodup := by
  rw [dedupKeepFirst, List.nodup_reverse]
  exact List.nodup_dedup _

theorem insertBy_perm {α : Type} (bef : α → α → Bool) (x : α) :
    ∀ l : List α, (insertBy bef x l).Perm (x :: l)
  | [] => List.Perm.refl _
  | y :: ys => by
    by_cases h : bef y x = true
    · have ih := insertBy_perm bef x ys
      simpa [insertBy, h] using (ih.cons y).trans (List.Perm.swap x y ys)
    · simp [insertBy, h]

theorem sortBy_perm {α : Type} (bef : α → α → Bool) :
    ∀ l : List α, (sortBy bef l).Perm l
  | [] => List.Perm.refl _
  | x :: xs =>
    (insertBy_perm bef x (sortBy bef xs)).trans ((sortBy_perm bef xs).cons x)

theorem mem_sortBy {α : Type} {bef : α → α → Bool} {x : α} {l : List α} :
    x ∈ sortBy bef l ↔ x ∈ l := (sortBy_perm bef l).mem_iff

theorem length_sortBy {α : Type} (bef : α → α → Bool) (l : List α) :
    (sortBy bef l).length = l.length := (sortBy_perm bef l).length_eq

theorem qsum_sortBy {α : Type} (f : α → ℚ) (bef : α → α → Bool) (l : List α) :
    qsum f (sortBy bef l) = qsum f l :=
  List.Perm.sum_eq (List.Perm.map f (sortBy_perm bef l))

theorem pairwise_insertBy {α : Type} {bef : α → α → Bool}
    (hasym : ∀ a b, bef a b = true → bef b a = false)
    (htrans : ∀ a b c, bef b a = false → bef c b = false → bef c a = false)
    (x : α) :
    ∀ {l : List α}, l.Pairwise (fun a b => bef b a = false) →
      (insertBy bef x l).Pairwise (fun a b => bef b a = false)
  | [], _ => by simp [insertBy]
  | y :: ys, hp => by
    rcases List.pairwise_cons.mp hp with ⟨hy, hys⟩
    by_cases h : bef y x = true
    · have ih := pairwise_insertBy hasym htrans x hys
      simp only [insertBy, h, if_true]
      refine List.pairwise_cons.mpr ⟨?_, ih⟩
      intro z hz
      rcases List.mem_cons.mp ((insertBy_perm bef x ys).mem_iff.mp hz) with hz1 | hz2
      · rw [hz1]; exact hasym y x h
      · exact hy z hz2
    · have hb : bef y x = false := by
        cases hyx : bef y x
        · rfl
        · exact absurd hyx h
      simp only [insertBy, h, if_false]
      refine List.pairwise_cons.mpr ⟨?_, hp⟩
      intro z hz
      rcases List.mem_cons.mp hz with hz1 | hz2
      · rw [hz1]; exact hb
      · exact htrans x y z hb (hy z hz2)

theorem pairwise_sortBy {α : Type} {bef : α → α → Bool}
    (hasym : ∀ a b, bef a b = true → bef b a = false)
    (htrans : ∀ a b c, bef b a = false → bef c b = false → bef c a = false) :
    ∀ l : List α, (sortBy bef l).Pairwise (fun a b => bef b a = false)
  | [] => List.Pairwise.nil
  | x :: xs => pairwise_insertBy hasym htrans x (pairwise_sortBy hasym htrans xs)

theorem filter_insertBy_pos {α : Type} {bef : α → α → Bool} {p : α → Bool} {x : α}
    (hx : p x = true) (h : ∀ y, bef y x = true → p y = false) :
    ∀ l : List α, (insertBy bef x l).filter p = x :: l.filter p
  | [] => by simp [insertBy, hx]
  | y :: ys => by
    by_cases hb : bef y x = true
    · simp [insertBy, hb, List.filter_cons, h y hb, filter_insertBy_pos hx h ys]
    · simp [insertBy, hb, List.filter_cons, hx]

theorem filter_insertBy_neg {α : Type} {bef : α → α → Bool} {p : α → Bool} {x : α}
    (hx : p x = false) :
    ∀ l : List α, (insertBy bef x l).filter p = l.filter p
  | [] => by simp [insertBy, hx]
  | y :: ys => by
    by_cases hb : bef y x = true
    · simp [insertBy, hb, List.filter_cons, filter_insertBy_neg hx ys]
    · simp [insertBy, hb, List.filter_cons, hx]

theorem filter_sortBy {α : Type} {bef : α → α → Bool} {p : α → Bool}
    (hcl : ∀ a b, p a = true → bef b a = true → p b = false) :
    ∀ l : List α, (sortBy bef l).filter p = l.filter p
  | [] => rfl
  | x :: xs => by
    by_cases hx : p x = true
    · rw [sortBy, filter_insertBy_pos hx (fun y hy => hcl x y hx hy),
        filter_sortBy hcl xs]
      simp [List.filter_cons, hx]
    · have hx2 : p x = false := by
        cases hpx : p x
        · rfl
        · exact absurd hpx hx
      rw [sortBy, filter_insertBy_neg hx2, filter_sortBy hcl xs]
      simp [List.filter_cons, hx2]

theorem sum_ones_length {α : Type} : ∀ l : List α,
    (l.map (fun _ => (1 : ℕ))).sum = l.length
  | [] => rfl
  | a :: l => by simp [sum_ones_length l, Nat.add_comm]

theorem sum_filter_split {α M : Type} [AddCommMonoid M] (f : α → M)
    (p q : α → Bool) :
    ∀ l : List α,
      ((l.filter p).map f).sum
        = ((l.filter (fun a => p a && q a)).map f).sum
          + ((l.filter (fun a => p a && !q a)).map f).sum
  | [] => by simp
  | a :: l => by
    have ih := sum_filter_split f p q l
    by_cases hp : p a = true
    · by_cases hq : q a = true
      · simp [List.filter_cons, hp, hq, ih, add_assoc]
      · have hq2 : q a = false := by
          cases hqq : q a
          · rfl
          · exact absurd hqq hq
        simp only [List.filter_cons, hp, hq2, Bool.and_false, Bool.and_true,
          Bool.not_false, if_true, if_false, List.map_cons, List.sum_cons, ih]
        simp [add_assoc, add_left_comm]
    · have hp2 : p a = false := by
        cases hpp : p a
        · rfl
        · exact absurd hpp hp
      simp [List.filter_cons, hp2, ih]

theorem sum_partition {α κ M : Type} [DecidableEq κ] [AddCommMonoid M]
    (key : α → Option κ) (f : α → M) :
    ∀ (keys : List κ) (l : List α), keys.Nodup →
      (∀ a ∈ l, ∀ k, key a = some k → k ∈ keys) →
      (keys.map (fun k =>
        ((l.filter (fun a => decide (key a = some k))).map f).sum)).sum
        = ((l.filter (fun a => (key a).isSome)).map f).sum
  | [], l, _, hcov => by
    have hnil : l.filter (fun a => (key a).isSome) = [] := by
      apply List.filter_eq_nil_iff.mpr
      intro a ha hsome
      match hk : key a with
      | none => rw [hk] at hsome; simp at hsome
      | some k => exact (List.not_mem_nil k) (hcov a ha k hk)
    simp [hnil]
  | k :: ks, l, hnd, hcov => by
    rcases List.nodup_cons.mp hnd with ⟨hknot, hnd2⟩
    have hks : ∀ k2 ∈ ks,
        l.filter (fun a => decide (key a = some k2))
          = (l.filter (fun a => !(decide (key a = some k)))).filter
              (fun a => decide (key a = some k2)) := by
      intro k2 hk2
      rw [List.filter_filter]
      apply List.filter_congr
      intro a _
      by_cases h : key a = some k2
      · have hk2ne : ¬ k2 = k := fun he => hknot (he ▸ hk2)
        simp [h, hk2ne]
      · simp [h]
    have hcov1 : ∀ a ∈ l.filter (fun a => !(decide (key a = some k))),
        ∀ k2, key a = some k2 → k2 ∈ ks := by
      intro a ha k2 hk2
      rcases List.mem_filter.mp ha with ⟨hal, hne⟩
      rcases List.mem_cons.mp (hcov a hal k2 hk2) with heq | hmem
      · exfalso
        rw [heq] at hk2
        simp [hk2] at hne
      · exact hmem
    have ih := sum_partition key f ks (l.filter (fun a => !(decide (key a = some k))))
      hnd2 hcov1
    have hsplit :
        ((l.filter (fun a => (key a).isSome)).map f).sum
          = ((l.filter (fun a => decide (key a = some k))).map f).sum
            + (((l.filter (fun a => !(decide (key a = some k)))).filter
                (fun a => (key a).isSome)).map f).sum := by
      have h1 := sum_filter_split f (fun a => (key a).isSome)
        (fun a => decide (key a = some k)) l
      have e1 : l.filter (fun a => (key a).isSome && decide (key a = some k))
          = l.filter (fun a => decide (key a = some k)) := by
        apply List.filter_congr
        intro a _
        by_cases h : key a = some k
        · simp [h]
        · simp [h]
      have e2 : l.filter (fun a => (key a).isSome && !(decide (key a = some k)))
          = (l.filter (fun a => !(decide (key a = some k)))).filter
              (fun a => (key a).isSome) := by
        rw [List.filter_filter]
      rw [e1, e2] at h1
      exact h1
    calc (((k :: ks)).map (fun k2 =>
            ((l.filter (fun a => decide (key a = some k2))).map f).sum)).sum
        = ((l.filter (fun a => decide (key a = some k))).map f).sum
          + (ks.map (fun k2 =>
              ((l.filter (fun a => decide (key a = some k2))).map f).sum)).sum := by
          simp
      _ = ((l.filter (fun a => decide (key a = some k))).map f).sum
          + (ks.map (fun k2 =>
              (((l.filter (fun a => !(decide (key a = some k)))).filter
                (fun a => decide (key a = some k2))).map f).sum)).sum := by
          congr 1
          apply congrArg
          apply List.map_congr_left
          intro k2 hk2
          rw [hks k2 hk2]
      _ = ((l.filter (fun a => decide (key a = some k))).map f).sum
          + (((l.filter (fun a => !(decide (key a = some k)))).filter
              (fun a => (key a).isSome)).map f).sum := by rw [ih]
      _ = ((l.filter (fun a => (key a).isSome)).map f).sum := hsplit.symm

theorem length_partition {α κ : Type} [DecidableEq κ]
    (key : α → Option κ) (keys : List κ) (l : List α) (hnd : keys.Nodup)
    (hcov : ∀ a ∈ l, ∀ k, key a = some k → k ∈ keys) :
    (keys.map (fun k =>
      (l.filter (fun a => decide (key a = some k))).length)).sum
      = (l.filter (fun a => (key a).isSome)).length := by
  have h := sum_partition key (fun _ => (1 : ℕ)) keys l hnd hcov
  simpa [sum_ones_length] using h

/- ----- lemmas about the lexicographic string order ----- -/

theorem charToNat_inj : Function.Injective Char.toNat :=
  StrictMono.injective fun _ _ h => h

theorem chLt_iff {a b : Char} : chLt a b = true ↔ a.toNat < b.toNat := by
  simp [chLt, Nat.blt_eq]

theorem chLt_trans {a b c : Char} (h1 : chLt a b = true)
    (h2 : chLt b c = true) : chLt a c = true := by
  rw [chLt_iff] at h1 h2 ⊢
  omega

theorem lexLt_irrefl : ∀ a : List Char, lexLt a a = false
  | [] => rfl
  | x :: as => by
    have hx : chLt x x = false := by
      rw [Bool.eq_false_iff]
      intro h
      rw [chLt_iff] at h
      omega
    simp [lexLt, hx, lexLt_irrefl as]

theorem lexLt_trans : ∀ {a b c : List Char}, lexLt a b = true →
    lexLt b c = true → lexLt a c = true
  | [], [], _, h1, _ => by simp [lexLt] at h1
  | [], _ :: _, [], _, h2 => by simp [lexLt] at h2
  | [], _ :: _, _ :: _, _, _ => by simp [lexLt]
  | _ :: _, [], _, h1, _ => by simp [lexLt] at h1
  | _ :: _, _ :: _, [], _, h2 => by simp [lexLt] at h2
  | x :: as, y :: bs, z :: cs, h1, h2 => by
    simp only [lexLt, Bool.or_eq_true, Bool.and_eq_true, beq_iff_eq] at h1 h2 ⊢
    rcases h1 with h1 | ⟨rfl, h1⟩
    · rcases h2 with h2 | ⟨rfl, h2⟩
      · exact Or.inl (chLt_trans h1 h2)
      · exact Or.inl h1
    · rcases h2 with h2 | ⟨rfl, h2⟩
      · exact Or.inl h2
      · exact Or.inr ⟨rfl, lexLt_trans h1 h2⟩

theorem lexLt_connex : ∀ {a b : List Char}, a ≠ b →
    lexLt a b = true ∨ lexLt b a = true
  | [], [], h => absurd rfl h
  | [], _ :: _, _ => Or.inl (by simp [lexLt])
  | _ :: _, [], _ => Or.inr (by simp [lexLt])
  | x :: as, y :: bs, h => by
    by_cases hxy : x = y
    · subst hxy
      have hab : as ≠ bs := fun hh => h (by rw [hh])
      rcases lexLt_connex hab with h1 | h1
      · exact Or.inl (by simp [lexLt, h1])
      · exact Or.inr (by simp [lexLt, h1])
    · by_cases hlt : chLt x y = true
      · exact Or.inl (by simp [lexLt, hlt])
      · have h2 : chLt y x = true := by
          rw [chLt_iff]
          have hne : x.toNat ≠ y.toNat := fun he => hxy (charToNat_inj he)
          have hnl : ¬ x.toNat < y.toNat := by
            rw [← chLt_iff]
            exact hlt
          omega
        exact Or.inr (by simp [lexLt, h2])

theorem strLt_asymm {s t : String} (h : strLt s t = true) :
    strLt t s = false := by
  by_contra hc
  rw [Bool.not_eq_false] at hc
  rw [strLt] at h hc
  have := lexLt_trans h hc
  rw [lexLt_irrefl] at this
  exact Bool.false_ne_true this

theorem strLt_neg_trans {a b c : String} (h1 : strLt b a = false)
    (h2 : strLt c b = false) : strLt c a = false := by
  by_contra hc
  rw [Bool.not_eq_false] at hc
  rw [strLt] at h1 h2 hc
  by_cases hab : a.data = b.data
  · rw [hab] at hc
    simp [h2] at hc
  · rcases lexLt_connex hab with h3 | h3
    · have h4 := lexLt_trans hc h3
      simp [h2] at h4
    · simp [h1] at h3

/- ----- lemmas about shipment reconstruction ----- -/

theorem aggregatePackages_eq (data : List Row) (hd : data ≠ []) :
    aggregatePackages data
      = (dedupKeepFirst ((if data.filter isFrtPkg = [] then data.filter isPkg
          else data.filter isFrtPkg).filterMap Row.tracking_number)).map
          (mkPackage (decide (data.filter isFrtPkg ≠ [])) data
            (if data.filter isFrtPkg = [] then data.filter isPkg
              else data.filter isFrtPkg)) := by
  rw [aggregatePackages, if_neg hd]

theorem aggregate_rep_aux {data base : List Row} {u : Bool} {t : String}
    (hbase : ∀ r ∈ base, r ∈ data ∧ isPkg r = true)
    (ht : t ∈ base.filterMap Row.tracking_number) :
    ∃ r ∈ data, r.tracking_number = some (mkPackage u data base t).tracking_number ∧
      isPkg r = true ∧ (mkPackage u data base t).is_return = r.is_return ∧
      (mkPackage u data base t).shipment_date = r.shipment_date := by
  rcases List.mem_filterMap.mp ht with ⟨r0, hr0, hr0t⟩
  have hr0f : r0 ∈ base.filter (fun r => decide (r.tracking_number = some t)) :=
    List.mem_filter.mpr ⟨hr0, by simp [hr0t]⟩
  have hgne : base.filter (fun r => decide (r.tracking_number = some t)) ≠ [] := by
    intro hnil
    rw [hnil] at hr0f
    exact List.not_mem_nil r0 hr0f
  have hrepmem := headI_mem hgne
  rcases List.mem_filter.mp hrepmem with ⟨hrepbase, hrept⟩
  rcases hbase _ hrepbase with ⟨hrepdata, hreppkg⟩
  refine ⟨_, hrepdata, ?_, hreppkg, rfl, rfl⟩
  simpa using hrept

theorem aggregate_rep {data : List Row} {P : Package}
    (hP : P ∈ aggregatePackages data) :
    ∃ r ∈ data, r.tracking_number = some P.tracking_number ∧ isPkg r = true ∧
      P.is_return = r.is_return ∧ P.shipment_date = r.shipment_date := by
  by_cases hd : data = []
  · rw [aggregatePackages, if_pos hd] at hP
    simp at hP
  · rw [aggregatePackages_eq data hd] at hP
    by_cases hf : data.filter isFrtPkg = []
    · rw [if_pos hf] at hP
      rcases List.mem_map.mp hP with ⟨t, ht, hmk⟩
      have ht2 := mem_dedupKeepFirst.mp ht
      have := @aggregate_rep_aux data (data.filter isPkg)
        (decide (data.filter isFrtPkg ≠ [])) t
        (fun r hr => ⟨(List.mem_filter.mp hr).1, (List.mem_filter.mp hr).2⟩) ht2
      rw [hmk] at this
      exact this
    · rw [if_neg hf] at hP
      rcases List.mem_map.mp hP with ⟨t, ht, hmk⟩
      have ht2 := mem_dedupKeepFirst.mp ht
      have := @aggregate_rep_aux data (data.filter isFrtPkg)
        (decide (data.filter isFrtPkg ≠ [])) t
        (fun r hr => ⟨(List.mem_filter.mp hr).1, by
          have h2 := (List.mem_filter.mp hr).2
          simp only [isFrtPkg, Bool.and_eq_true] at h2
          exact h2.1⟩) ht2
      rw [hmk] at this
      exact this

theorem aggregate_tracking_nodup (data : List Row) :
    ((aggregatePackages data).map Package.tracking_number).Nodup := by
  rw [aggregatePackages]
  by_cases hd : data = []
  · simp [hd]
  · rw [if_neg hd, List.map_map]
    have he : (Package.tracking_number ∘ mkPackage
        (decide (data.filter isFrtPkg ≠ [])) data
        (if data.filter isFrtPkg = [] then data.filter isPkg
          else data.filter isFrtPkg)) = fun t => t := rfl
    rw [he]
    have := nodup_dedupKeepFirst ((if data.filter isFrtPkg = []
      then data.filter isPkg else data.filter isFrtPkg).filterMap
        Row.tracking_number)
    simpa using this

/- ----- claim theorems ----- -/

/-- C4: filter with no predicates (no dates, no countries, no services,
returns_only false) wraps an unchanged dataset, so every rollup of the
new engine (summary, cost breakdown, destination, trends, returns,
weights, services, duties, accessorials, top expenses) is identical to
the original engine's. -/
theorem filter_no_predicates_identity (data : List Row) (period : String)
    (n : ℕ) :
    filterData data none none none none false = data ∧
    getSummary (filterData data none none none none false) = getSummary data ∧
    analyzeCostBreakdown (filterData data none none none none false)
      = analyzeCostBreakdown data ∧
    analyzeByDestination (filterData data none none none none false)
      = analyzeByDestination data ∧
    analyzeTrends (filterData data none none none none false) period
      = analyzeTrends data period ∧
    analyzeReturns (filterData data none none none none false)
      = analyzeReturns data ∧
    analyzeWeights (filterData data none none none none false)
      = analyzeWeights data ∧
    analyzeServices (filterData data none none none none false)
      = analyzeServices data ∧
    analyzeDutiesAndBrokerage (filterData data none none none none false)
      = analyzeDutiesAndBrokerage data ∧
    analyzeAccessorials (filterData data none none none none false)
      = analyzeAccessorials data ∧
    getTopExpenses (filterData data none none none none false) n
      = getTopExpenses data n :=
  ⟨rfl, rfl, rfl, rfl, rfl, rfl, rfl, rfl, rfl, rfl, rfl⟩

/-- C9: a dataset with zero IMP-subtype rows makes
analyze_duties_and_brokerage return the explicit no-data result (empty
summary and empty sub-tables), not an error. -/
theorem duties_empty_when_no_imports (data : List Row)
    (h : ∀ r ∈ data, r.shipment_subtype ≠ some "IMP") :
    analyzeDutiesAndBrokerage data = ⟨none, [], [], []⟩ := by
  rw [analyzeDutiesAndBrokerage]
  by_cases hd : data = []
  · rw [if_pos hd]
  · rw [if_neg hd]
    have himp : data.filter
        (fun r => decide (r.shipment_subtype = some "IMP")) = [] := by
      apply List.filter_eq_nil_iff.mpr
      intro r hr
      simp [h r hr]
    simp [himp]

theorem duties_empty_when_no_imports_witness :
    analyzeDutiesAndBrokerage dataW9 = ⟨none, [], [], []⟩ :=
  duties_empty_when_no_imports dataW9 (by decide)

theorem mem_of_mem_returnsFilter {b : Bool} {l : List Row} {r : Row}
    (h : r ∈ returnsFilter b l) : r ∈ l := by
  cases b with
  | false => exact h
  | true => exact List.mem_of_mem_filter h

theorem mem_of_mem_serviceFilter {sv : Option (List String)} {l : List Row}
    {r : Row} (h : r ∈ serviceFilter sv l) : r ∈ l := by
  match sv with
  | none => exact h
  | some [] => exact h
  | some (s :: ss) => exact List.mem_of_mem_filter h

theorem mem_of_mem_countryFilter {cs : Option (List String)} {l : List Row}
    {r : Row} (h : r ∈ countryFilter cs l) : r ∈ l := by
  match cs with
  | none => exact h
  | some [] => exact h
  | some (c :: cl) => exact List.mem_of_mem_filter h

theorem mem_of_mem_dateFilterEnd {e : Option Date} {l : List Row} {r : Row}
    (h : r ∈ dateFilterEnd e l) : r ∈ l := by
  match e with
  | none => exact h
  | some d => exact List.mem_of_mem_filter h

/-- C10: whenever filter_data receives a start date or an end date (even
an end date alone), every charge line whose shipment date is absent is
excluded from the filtered dataset; the filtered engine's rollups are
functions of that dataset alone, so shipments with unknown ship dates
disappear from all of them. -/
theorem filter_with_date_excludes_undated (data : List Row)
    (startDate endDate : Option Date)
    (countries services : Option (List String)) (returnsOnly : Bool)
    (h : startDate.isSome = true ∨ endDate.isSome = true) :
    ∀ r ∈ filterData data startDate endDate countries services returnsOnly,
      r.shipment_date.isSome = true := by
  intro r hr
  rw [filterData] at hr
  have hr2 : r ∈ dateFilterEnd endDate (dateFilterStart startDate data) :=
    mem_of_mem_countryFilter
      (mem_of_mem_serviceFilter (mem_of_mem_returnsFilter hr))
  rcases h with h | h
  · match startDate with
    | some s =>
      have hr1 : r ∈ dateFilterStart (some s) data := mem_of_mem_dateFilterEnd hr2
      rw [dateFilterStart] at hr1
      have hcond := (List.mem_filter.mp hr1).2
      match hd : r.shipment_date with
      | some d => rfl
      | none => rw [hd] at hcond; exact absurd hcond (by simp)
  · match endDate with
    | some e =>
      rw [dateFilterEnd] at hr2
      have hcond := (List.mem_filter.mp hr2).2
      match hd : r.shipment_date with
      | some d => rfl
      | none => rw [hd] at hcond; exact absurd hcond (by simp)

theorem filter_with_date_excludes_undated_witness :
    (filterData dataW10 (some ⟨2024, 1, 1⟩) none none none false).all
      (fun r => r.shipment_date.isSome) = true :=
  List.all_eq_true.mpr
    (filter_with_date_excludes_undated dataW10 (some ⟨2024, 1, 1⟩) none none
      none false (Or.inl rfl))

theorem lookup_eq_none_of_not_mem {c : String} :
    ∀ l : List (String × String), (∀ p ∈ l, p.1 ≠ c) → l.lookup c = none
  | [], _ => rfl
  | (k, v) :: l, h => by
    have hk : k ≠ c := h (k, v) (List.mem_cons_self _ _)
    have hck : (c == k) = false := by
      apply beq_eq_false_iff_ne.mpr
      exact fun he => hk he.symm
    rw [List.lookup, hck]
    exact lookup_eq_none_of_not_mem l (fun p hp => h p (List.mem_cons_of_mem _ hp))

/-- C6: for every parsed row, when the charge category is FRT and the
charge description is present and non-blank after trimming, service_name
is the description verbatim; otherwise it is the static service-code
lookup, which resolves to "Other" when the service code is not in the
table (or absent). -/
theorem service_name_resolution (cat desc svc : Option String) :
    (∀ s : String, cat = some "FRT" → desc = some s → strTrim s ≠ "" →
      serviceNameOf cat desc svc = s) ∧
    ((cat ≠ some "FRT" ∨ desc = none ∨ (∃ s, desc = some s ∧ strTrim s = "")) →
      serviceNameOf cat desc svc = serviceCodeLookup svc) ∧
    (∀ c : String, svc = some c → (∀ p ∈ SERVICE_CODES, p.1 ≠ c) →
      serviceCodeLookup svc = "Other") := by
  refine ⟨?_, ?_, ?_⟩
  · intro s hcat hdesc hs
    subst hcat
    subst hdesc
    simp [serviceNameOf, hs]
  · intro h
    unfold serviceNameOf
    by_cases hcat : cat = some "FRT"
    · rw [if_pos hcat]
      rcases h with h | h | ⟨s2, hdesc, hs2⟩
      · exact absurd hcat h
      · rw [h]
      · rw [hdesc]
        simp [hs2]
    · rw [if_neg hcat]
  · intro c hc hnot
    subst hc
    rw [serviceCodeLookup, lookup_eq_none_of_not_mem SERVICE_CODES hnot]
    rfl

theorem service_name_resolution_witness :
    serviceNameOf (some "FRT") (some "TB Standard Special") (some "004")
      = "TB Standard Special" ∧
    serviceNameOf (some "FRT") none (some "999") = "Other" ∧
    serviceNameOf (some "ACC") (some "Residential") (some "004")
      = "TB Standard" := by
  refine ⟨?_, ?_, ?_⟩
  · exact (service_name_resolution (some "FRT") (some "TB Standard Special")
      (some "004")).1 "TB Standard Special" rfl rfl (by decide)
  · rw [(service_name_resolution (some "FRT") none (some "999")).2.1
      (Or.inr (Or.inl rfl))]
    exact (service_name_resolution (some "FRT") none (some "999")).2.2 "999"
      rfl (by decide)
  · rw [(service_name_resolution (some "ACC") (some "Residential")
      (some "004")).2.1 (Or.inl (by simp))]
    rfl

theorem runPackages_frame (s : EngineState) : cacheFrame s (runPackages s).1 := by
  rw [runPackages, cacheFrame]
  match hc : s.cache with
  | some p => exact ⟨rfl, Or.inl hc⟩
  | none => exact ⟨rfl, Or.inr ⟨rfl, rfl⟩⟩

/-- C8: every public analyzer method leaves the engine's wrapped dataset
unchanged, and the only state change any of them ever makes is the
one-time fill of the private shipment-table cache with the aggregation
of that dataset (filter_data builds a fresh engine and leaves the
receiver fully untouched). -/
theorem analyzer_methods_frame (s : EngineState) (period : String) (n : ℕ)
    (startDate endDate : Option Date)
    (countries services : Option (List String)) (returnsOnly : Bool) :
    cacheFrame s (getSummaryM s).1 ∧
    cacheFrame s (analyzeCostBreakdownM s).1 ∧
    cacheFrame s (analyzeByDestinationM s).1 ∧
    cacheFrame s (analyzeTrendsM s period).1 ∧
    cacheFrame s (analyzeReturnsM s).1 ∧
    cacheFrame s (analyzeWeightsM s).1 ∧
    cacheFrame s (analyzeServicesM s).1 ∧
    cacheFrame s (analyzeDutiesAndBrokerageM s).1 ∧
    cacheFrame s (analyzeAccessorialsM s).1 ∧
    cacheFrame s (getTopExpensesM s n).1 ∧
    (filterDataM s startDate endDate countries services returnsOnly).1 = s := by
  have hrun := runPackages_frame s
  have hid : cacheFrame s s := ⟨rfl, Or.inl rfl⟩
  refine ⟨?_, hid, hrun, hrun, hrun, hrun, hrun, hid, hid, hrun, rfl⟩
  · rw [getSummaryM]
    by_cases hd : s.data = []
    · rw [if_pos hd]
      exact hid
    · rw [if_neg hd]
      exact hrun

theorem qsum_tc_map_percentage (l : List CostRow) (g : CostRow → ℚ) :
    qsum CostRow.total_charge
      (l.map (fun cr => { cr with percentage := g cr }))
      = qsum CostRow.total_charge l := by
  rw [qsum, List.map_map]
  rfl

theorem isSome_catKey {r : Row} :
    (catKey r).isSome = (r.charge_category).isSome := by
  rw [catKey]
  cases r.charge_category <;> rfl

/-- C1 counterexample: in dataC1 the single charge line's tracking
number owns no descriptor row (its package indicator is 0), so the
derived shipment table is empty and its total_charge sum is 0, while the
charge-line table sums to 5: reconstruction does not preserve money on
every dataset. -/
theorem money_reconciliation_counterexample :
    shipmentTotal dataC1 = 0 ∧ chargeTotal dataC1 = 5 := by
  constructor
  · simp +decide [shipmentTotal, aggregatePackages, dataC1, rowBase, isFrtPkg,
      isPkg, qsum, dedupKeepFirst]
  · norm_num [chargeTotal, qsum, dataC1, rowBase]

/-- C1 (amended): for every dataset in which each charge line's tracking
number is present and carried by at least one freight descriptor row
(package_indicator 1 and charge category FRT) and each charge line has a
present charge category, the sum of total_charge over the derived
shipment table equals the sum over the charge-line table, and the sum
over the cost-breakdown rollup equals it as well. -/
theorem money_reconciliation (data : List Row)
    (hdesc : ∀ r ∈ data, ∃ t, r.tracking_number = some t ∧
      ∃ x ∈ data, x.tracking_number = some t ∧ isFrtPkg x = true)
    (hcat : ∀ r ∈ data, (r.charge_category).isSome = true) :
    shipmentTotal data = chargeTotal data ∧
    costBreakdownTotal data = chargeTotal data := by
  by_cases hd : data = []
  · subst hd
    exact ⟨rfl, rfl⟩
  · have hfrt : data.filter isFrtPkg ≠ [] := by
      rcases List.exists_mem_of_ne_nil data hd with ⟨r0, hr0⟩
      rcases hdesc r0 hr0 with ⟨t, _, x, hx, _, hxf⟩
      intro hnil
      have hmem : x ∈ data.filter isFrtPkg := List.mem_filter.mpr ⟨hx, hxf⟩
      rw [hnil] at hmem
      exact List.not_mem_nil x hmem
    have hall : data.filter (fun a => (Row.tracking_number a).isSome) = data :=
      List.filter_eq_self.mpr (fun r hr => by
        rcases hdesc r hr with ⟨t, htr, _⟩
        simp [htr])
    constructor
    · rw [shipmentTotal, aggregatePackages_eq data hd, if_neg hfrt, qsum,
        List.map_map]
      have hpart := sum_partition Row.tracking_number Row.total_charge
        (dedupKeepFirst ((data.filter isFrtPkg).filterMap Row.tracking_number))
        data (nodup_dedupKeepFirst _)
        (fun r hr k hk => by
          rcases hdesc r hr with ⟨t, htr, x, hx, hxt, hxf⟩
          rw [htr] at hk
          have htk : t = k := Option.some.inj hk
          apply mem_dedupKeepFirst.mpr
          apply List.mem_filterMap.mpr
          exact ⟨x, List.mem_filter.mpr ⟨hx, hxf⟩, by rw [hxt, htk]⟩)
      rw [hall] at hpart
      exact hpart
    · rw [costBreakdownTotal, analyzeCostBreakdown, if_neg hd, qsum_sortBy,
        qsum_tc_map_percentage, costRowsOf, qsum, List.map_map]
      have hpart := sum_partition catKey Row.total_charge
        (dedupKeepFirst (data.filterMap catKey)) data
        (nodup_dedupKeepFirst _)
        (fun r hr k hk => by
          apply mem_dedupKeepFirst.mpr
          apply List.mem_filterMap.mpr
          exact ⟨r, hr, hk⟩)
      have hall2 : data.filter (fun a => (catKey a).isSome) = data :=
        List.filter_eq_self.mpr (fun r hr => by
          rw [isSome_catKey]
          exact hcat r hr)
      rw [hall2] at hpart
      exact hpart

theorem money_reconciliation_witness :
    shipmentTotal dataW1 = chargeTotal dataW1 ∧
    costBreakdownTotal dataW1 = chargeTotal dataW1 :=
  money_reconciliation dataW1
    (by
      intro r hr
      rw [dataW1] at hr
      rcases List.mem_cons.mp hr with hr | hr
      · subst hr
        refine ⟨"1Z002", rfl, _, List.mem_cons_self _ _, rfl, by decide⟩
      · exact absurd hr (List.not_mem_nil r))
    (by decide)

theorem bucketOf_spec (w : ℚ) (lb : String) :
    bucketOf w = some lb ↔ bucketMem lb w := by
  constructor
  · intro h
    rw [bucketOf] at h
    split_ifs at h with h1 h2 h3 h4 h5 h6 h7 h8 <;>
      first
      | exact Option.noConfusion h
      | (rcases Option.some.inj h with rfl
         rw [bucketMem]
         first
         | exact Or.inl ⟨rfl, by linarith, by linarith⟩
         | exact Or.inr (Or.inl ⟨rfl, by linarith, by linarith⟩)
         | exact Or.inr (Or.inr (Or.inl ⟨rfl, by linarith, by linarith⟩))
         | exact Or.inr (Or.inr (Or.inr
             (Or.inl ⟨rfl, by linarith, by linarith⟩)))
         | exact Or.inr (Or.inr (Or.inr (Or.inr
             (Or.inl ⟨rfl, by linarith, by linarith⟩))))
         | exact Or.inr (Or.inr (Or.inr (Or.inr (Or.inr
             (Or.inl ⟨rfl, by linarith, by linarith⟩)))))
         | exact Or.inr (Or.inr (Or.inr (Or.inr (Or.inr (Or.inr
             (Or.inl ⟨rfl, by linarith, by linarith⟩))))))
         | exact Or.inr (Or.inr (Or.inr (Or.inr (Or.inr (Or.inr
             (Or.inr ⟨rfl, by linarith⟩)))))))
  · intro hbm
    rw [bucketMem] at hbm
    rcases hbm with ⟨rfl, hlo, hhi⟩ | ⟨rfl, hlo, hhi⟩ | ⟨rfl, hlo, hhi⟩ |
      ⟨rfl, hlo, hhi⟩ | ⟨rfl, hlo, hhi⟩ | ⟨rfl, hlo, hhi⟩ | ⟨rfl, hlo, hhi⟩ |
      ⟨rfl, hlo⟩ <;>
      · rw [bucketOf]
        split_ifs <;> first | rfl | (exfalso; linarith)

theorem bucketOf_isSome_eq (w : ℚ) :
    (bucketOf w).isSome = decide (0 < w) := by
  rw [bucketOf]
  split_ifs with h1 h2 h3 h4 h5 h6 h7 h8
  · rw [Option.isSome_none, eq_comm, decide_eq_false_iff_not]
    linarith
  all_goals
    rw [Option.isSome_some, eq_comm, decide_eq_true_eq]
    linarith

/-- C2 counterexample: in dataC2 the single shipment has actual weight 1
and billed weight 0, so it belongs to the weight-filtered subset (one
shipment), yet pd.cut assigns it no bucket: the bucket counts sum to 0,
not 1, and a billed weight of exactly 0 falls outside the claimed
left-closed interval [0, 0.5) as implemented. -/
theorem weight_buckets_counterexample :
    (weightSubset (aggregatePackages dataC2)).length = 1 ∧
    distCountSum (analyzeWeights dataC2).distribution = 0 := by
  constructor
  · simp +decide [weightSubset, aggregatePackages, dataC2, rowBase, isFrtPkg,
      isPkg, dedupKeepFirst, mkPackage, qsum]
  · simp +decide [analyzeWeights, weightsFrom, aggregatePackages, dataC2,
      rowBase, isFrtPkg, isPkg, dedupKeepFirst, mkPackage, qsum, weightSubset,
      distributionOf, bucketOf, weightLabels, distCountSum]

theorem bucketOf_mem_labels {w : ℚ} {lb : String} (h : bucketOf w = some lb) :
    lb ∈ weightLabels := by
  have hb := (bucketOf_spec w lb).mp h
  rw [bucketMem] at hb
  rcases hb with ⟨rfl, _⟩ | ⟨rfl, _⟩ | ⟨rfl, _⟩ | ⟨rfl, _⟩ | ⟨rfl, _⟩ |
    ⟨rfl, _⟩ | ⟨rfl, _⟩ | ⟨rfl, _⟩ <;> decide

theorem distCountSum_distributionOf (wd : List Package) :
    distCountSum (distributionOf wd)
      = (wd.filter (fun p => decide (0 < p.billed_weight))).length := by
  rw [distCountSum, distributionOf, List.map_map]
  have hnd : (weightLabels.filter (fun lb =>
      wd.any (fun p => decide (bucketOf p.billed_weight = some lb)))).Nodup :=
    List.Nodup.filter _ (by decide)
  have hp := length_partition (fun p : Package => bucketOf p.billed_weight)
    (weightLabels.filter (fun lb =>
      wd.any (fun p => decide (bucketOf p.billed_weight = some lb)))) wd hnd
    (fun p hp lb hk => by
      apply List.mem_filter.mpr
      refine ⟨bucketOf_mem_labels hk, ?_⟩
      exact List.any_eq_true.mpr ⟨p, hp, by simp [hk]⟩)
  have hcg : wd.filter (fun a => (bucketOf a.billed_weight).isSome)
      = wd.filter (fun p => decide (0 < p.billed_weight)) :=
    List.filter_congr (fun p _ => bucketOf_isSome_eq _)
  rw [hcg] at hp
  exact hp

/-- C2 (amended): pd.cut buckets billed weight into the left-open,
right-closed ranges (0,0.5], (0.5,1], (1,2], (2,5], (5,10], (10,20],
(20,50], (50,inf): every shipment of the weight-filtered subset whose
billed weight is strictly positive falls into exactly one bucket
interval, and the bucket counts sum to the number of shipments of that
subset with positive billed weight (a shipment with billed weight 0 or
less falls into no bucket). -/
theorem weight_buckets_partition (data : List Row) :
    (∀ p ∈ weightSubset (aggregatePackages data), 0 < p.billed_weight →
      ∃! lb, bucketMem lb p.billed_weight) ∧
    distCountSum (analyzeWeights data).distribution
      = ((weightSubset (aggregatePackages data)).filter
          (fun p => decide (0 < p.billed_weight))).length := by
  constructor
  · intro p _ hpos
    have hsome : (bucketOf p.billed_weight).isSome = true := by
      rw [bucketOf_isSome_eq]
      exact decide_eq_true hpos
    rcases Option.isSome_iff_exists.mp hsome with ⟨lb, hlb⟩
    refine ⟨lb, (bucketOf_spec _ _).mp hlb, ?_⟩
    intro lb2 hlb2
    have h2 := (bucketOf_spec p.billed_weight lb2).mpr hlb2
    rw [hlb] at h2
    exact (Option.some.inj h2).symm
  · rw [analyzeWeights, weightsFrom]
    by_cases hps : aggregatePackages data = []
    · rw [if_pos hps]
      simp [hps, weightSubset, distCountSum]
    · rw [if_neg hps]
      by_cases hwd : weightSubset (aggregatePackages data) = []
      · rw [if_pos hwd]
        simp [hwd, distCountSum]
      · rw [if_neg hwd]
        exact distCountSum_distributionOf _

theorem weight_buckets_partition_witness :
    distCountSum (analyzeWeights dataW2).distribution = 1 := by
  have h := (weight_buckets_partition dataW2).2
  rw [h]
  simp +decide [weightSubset, aggregatePackages, dataW2, rowBase, isFrtPkg,
    isPkg, dedupKeepFirst, mkPackage, qsum]

/-- C3 counterexample: the shipments of dataC3 (shipped 2020-12-31 and
2021-01-01) lie in the same ISO week, 2020-W53, yet analyze_trends with
period "week" puts them in two different buckets labelled "2020-W52" and
"2021-W00" (strftime %W), so the bucketing is not by ISO week. -/
theorem trends_iso_week_counterexample :
    (analyzeTrends dataC3 "week").map TrendRow.period
      = ["2020-W52", "2021-W00"] ∧
    isoYearWeek ⟨2020, 12, 31⟩ = isoYearWeek ⟨2021, 1, 1⟩ := by
  constructor
  · decide
  · decide

/-- C3 (amended): analyze_trends drops shipments with an absent ship
date and buckets the remaining shipments by the strftime period label —
"%Y-W%W", the Monday-based week-of-year with week 00 before the first
Monday (not the ISO week), when the period is "week", and "%Y-%m"
calendar months otherwise; each bucket carries the shipment count, the
summed cost, the summed weight and the average cost per package rounded
to 2 decimals, and the buckets are sorted ascending by period label. -/
theorem trends_bucketing (data : List Row) (period : String) :
    (∀ row ∈ analyzeTrends data period,
      row.package_count = ((datedOf (aggregatePackages data)).filter
        (fun p => decide (trendLabel period p = row.period))).length ∧
      row.total_cost = qsum Package.total_charge
        ((datedOf (aggregatePackages data)).filter
          (fun p => decide (trendLabel period p = row.period))) ∧
      row.total_weight = qsum Package.billed_weight
        ((datedOf (aggregatePackages data)).filter
          (fun p => decide (trendLabel period p = row.period))) ∧
      row.avg_cost_per_package
        = round2 (row.total_cost / (row.package_count : ℚ))) ∧
    (∀ p ∈ datedOf (aggregatePackages data),
      ∃ row ∈ analyzeTrends data period, row.period = trendLabel period p) ∧
    (∀ row ∈ analyzeTrends data period,
      ∃ p ∈ datedOf (aggregatePackages data), trendLabel period p = row.period) ∧
    ((analyzeTrends data period).map TrendRow.period).Pairwise
      (fun a b => strLt b a = false) := by
  rw [analyzeTrends, trendsFrom]
  by_cases hps : aggregatePackages data = []
  · rw [if_pos hps]
    refine ⟨fun row hrow => absurd hrow (List.not_mem_nil row), ?_, ?_, ?_⟩
    · intro p hp
      rw [hps] at hp
      exact absurd hp (by simp [datedOf])
    · exact fun row hrow => absurd hrow (List.not_mem_nil row)
    · exact List.Pairwise.nil
  · rw [if_neg hps]
    by_cases hdt : datedOf (aggregatePackages data) = []
    · rw [if_pos hdt]
      refine ⟨fun row hrow => absurd hrow (List.not_mem_nil row), ?_, ?_, ?_⟩
      · intro p hp
        rw [hdt] at hp
        exact absurd hp (List.not_mem_nil p)
      · exact fun row hrow => absurd hrow (List.not_mem_nil row)
      · exact List.Pairwise.nil
    · rw [if_neg hdt]
      refine ⟨?_, ?_, ?_, ?_⟩
      · intro row hrow
        have hrow2 := mem_sortBy.mp hrow
        rw [trendRowsOf] at hrow2
        rcases List.mem_map.mp hrow2 with ⟨k, _, hmk⟩
        rw [← hmk]
        exact ⟨rfl, rfl, rfl, rfl⟩
      · intro p hp
        have hkmem : trendLabel period p ∈ dedupKeepFirst
            ((datedOf (aggregatePackages data)).map (trendLabel period)) :=
          mem_dedupKeepFirst.mpr (List.mem_map.mpr ⟨p, hp, rfl⟩)
        have hrow : ∃ row ∈ trendRowsOf (datedOf (aggregatePackages data))
            period, row.period = trendLabel period p := by
          rw [trendRowsOf]
          exact ⟨_, List.mem_map.mpr ⟨trendLabel period p, hkmem, rfl⟩, rfl⟩
        rcases hrow with ⟨row, hrm, hrp⟩
        exact ⟨row, mem_sortBy.mpr hrm, hrp⟩
      · intro row hrow
        have hrow2 := mem_sortBy.mp hrow
        rw [trendRowsOf] at hrow2
        rcases List.mem_map.mp hrow2 with ⟨k, hk, hmk⟩
        have hk2 := mem_dedupKeepFirst.mp hk
        rcases List.mem_map.mp hk2 with ⟨p, hp, hlbl⟩
        exact ⟨p, hp, by rw [hlbl, ← hmk]⟩
      · apply List.pairwise_map.mpr
        exact @pairwise_sortBy TrendRow
          (fun a b => strLt a.period b.period)
          (fun a b h => strLt_asymm h)
          (fun a b c h1 h2 => strLt_neg_trans h1 h2)
          (trendRowsOf (datedOf (aggregatePackages data)) period)

theorem trends_bucketing_witness :
    ∃ row ∈ analyzeTrends dataW3 "week", row.period = "2024-W01" := by
  have h2 := (trends_bucketing dataW3 "week").2.1
  have hp : ∃ p ∈ datedOf (aggregatePackages dataW3),
      trendLabel "week" p = "2024-W01" := by decide
  rcases hp with ⟨p, hpmem, hlbl⟩
  rcases h2 p hpmem with ⟨row, hrow, hper⟩
  exact ⟨row, hrow, by rw [hper, hlbl]⟩

theorem bef_tc_asymm (a b : Package) :
    (decide (b.total_charge < a.total_charge) = true) →
    (decide (a.total_charge < b.total_charge) = false) := by
  intro h
  rw [decide_eq_true_eq] at h
  rw [decide_eq_false_iff_not]
  exact lt_asymm h

theorem bef_tc_trans (a b c : Package) :
    (decide (a.total_charge < b.total_charge) = false) →
    (decide (b.total_charge < c.total_charge) = false) →
    (decide (a.total_charge < c.total_charge) = false) := by
  intro h1 h2
  rw [decide_eq_false_iff_not] at h1 h2
  rw [decide_eq_false_iff_not]
  intro hlt
  exact h1 (lt_of_lt_of_le hlt (le_of_not_lt h2))

/-- C7: get_top_expenses(n) returns exactly min(n, shipment_count) rows,
sorted descending by total_charge; no tracking number repeats; and for
every charge value the rows carrying it appear as a prefix of the rows
of the shipment table carrying it, in shipment-table order (nlargest
with keep="first" breaks ties by input order). -/
theorem top_expenses_spec (data : List Row) (n : ℕ) :
    (getTopExpenses data n).length = min n (aggregatePackages data).length ∧
    (getTopExpenses data n).Pairwise
      (fun a b => b.total_charge ≤ a.total_charge) ∧
    ((getTopExpenses data n).map TopRow.tracking_number).Nodup ∧
    (∀ c : ℚ,
      ((getTopExpenses data n).filter
        (fun x => decide (x.total_charge = c))).map TopRow.tracking_number
      <+: ((aggregatePackages data).filter
        (fun p => decide (p.total_charge = c))).map Package.tracking_number) := by
  rw [getTopExpenses, topFrom]
  by_cases hps : aggregatePackages data = []
  · rw [if_pos hps, hps]
    refine ⟨by simp, List.Pairwise.nil, List.nodup_nil, ?_⟩
    intro c
    simp
  · rw [if_neg hps]
    refine ⟨?_, ?_, ?_, ?_⟩
    · rw [List.length_map, List.length_take,
        length_sortBy (fun a b => decide (b.total_charge < a.total_charge))
          (aggregatePackages data)]
    · apply List.pairwise_map.mpr
      have hsor := @pairwise_sortBy Package
        (fun a b => decide (b.total_charge < a.total_charge))
        (fun a b h => bef_tc_asymm a b h)
        (fun a b c h1 h2 => bef_tc_trans a b c h1 h2)
        (aggregatePackages data)
      have htake := List.Pairwise.sublist (List.take_sublist n _) hsor
      exact htake.imp (fun h => le_of_not_lt (by
        rw [decide_eq_false_iff_not] at h
        exact h))
    · rw [List.map_map]
      have he : TopRow.tracking_number ∘ topRowOf = Package.tracking_number :=
        rfl
      rw [he]
      apply List.Sublist.nodup (List.Sublist.map Package.tracking_number
        (List.take_sublist n _))
      have hperm := List.Perm.map Package.tracking_number
        (sortBy_perm (fun a b : Package =>
          decide (b.total_charge < a.total_charge)) (aggregatePackages data))
      exact (List.Perm.nodup_iff hperm).mpr (aggregate_tracking_nodup data)
    · intro c
      rw [List.filter_map, List.map_map]
      have he : (fun x : TopRow => decide (x.total_charge = c)) ∘ topRowOf
          = fun p : Package => decide (p.total_charge = c) := rfl
      rw [he]
      have he2 : TopRow.tracking_number ∘ topRowOf = Package.tracking_number :=
        rfl
      rw [he2]
      have hpre : (List.take n (sortBy (fun a b : Package =>
            decide (b.total_charge < a.total_charge))
            (aggregatePackages data))).filter
            (fun p => decide (p.total_charge = c))
          <+: (sortBy (fun a b : Package =>
            decide (b.total_charge < a.total_charge))
            (aggregatePackages data)).filter
            (fun p => decide (p.total_charge = c)) :=
        List.IsPrefix.filter _ (List.take_prefix n _)
      have hstab : (sortBy (fun a b : Package =>
            decide (b.total_charge < a.total_charge))
            (aggregatePackages data)).filter
            (fun p => decide (p.total_charge = c))
          = (aggregatePackages data).filter
            (fun p => decide (p.total_charge = c)) := by
        apply filter_sortBy
        intro a b hpa hba
        rw [decide_eq_true_eq] at hpa hba
        rw [decide_eq_false_iff_not]
        intro hpb
        rw [hpb, hpa] at hba
        exact lt_irrefl c hba
      rw [hstab] at hpre
      exact List.IsPrefix.map Package.tracking_number hpre

theorem returnsReported_eq (data : List Row) :
    returnsReported data = (retsOf (aggregatePackages data)).length := by
  rw [returnsReported, analyzeReturns, returnsFrom]
  by_cases hps : aggregatePackages data = []
  · rw [if_pos hps, hps]
    rfl
  · rw [if_neg hps]
    by_cases hr : retsOf (aggregatePackages data) = []
    · rw [if_pos hr, hr]
      rfl
    · rw [if_neg hr]
      rfl

theorem filterData_returns_only (data : List Row) :
    filterData data none none none none true = data.filter Row.is_return := rfl

theorem rep_mem {base : List Row} {t : String}
    (h : ∃ r ∈ base, r.tracking_number = some t) :
    (base.filter (fun r => decide (r.tracking_number = some t))).headI ∈ base ∧
    ((base.filter
      (fun r => decide (r.tracking_number = some t))).headI).tracking_number
      = some t := by
  rcases h with ⟨r0, hr0, hr0t⟩
  have hf : r0 ∈ base.filter (fun r => decide (r.tracking_number = some t)) :=
    List.mem_filter.mpr ⟨hr0, by simp [hr0t]⟩
  have hne : base.filter (fun r => decide (r.tracking_number = some t)) ≠ [] := by
    intro hnil
    rw [hnil] at hf
    exact List.not_mem_nil r0 hf
  have hm := headI_mem hne
  rcases List.mem_filter.mp hm with ⟨h1, h2⟩
  exact ⟨h1, by simpa using h2⟩

theorem aggregate_nil_of_none {l : List Row}
    (h : ∀ r ∈ l, r.tracking_number = none) : aggregatePackages l = [] := by
  by_cases hl : l = []
  · rw [hl, aggregatePackages, if_pos rfl]
  · rw [aggregatePackages_eq l hl]
    have hfm : (if l.filter isFrtPkg = [] then l.filter isPkg
        else l.filter isFrtPkg).filterMap Row.tracking_number = [] := by
      apply List.filterMap_eq_nil_iff.mpr
      intro r hr
      by_cases hf : l.filter isFrtPkg = []
      · rw [if_pos hf] at hr
        exact h r (List.mem_of_mem_filter hr)
      · rw [if_neg hf] at hr
        exact h r (List.mem_of_mem_filter hr)
    rw [hfm]
    rfl

/-- C5 counterexample: in dataC5 the two freight descriptor rows of
tracking 1Z008 disagree on the return flag; the unfiltered engine's
representative row is not a return, so analyze_returns reports nothing,
yet filter(returns_only) yields a one-row shipment table. -/
theorem returns_filter_counterexample :
    (aggregatePackages (filterData dataC5 none none none none true)).length
      = 1 ∧
    returnsReported dataC5 = 0 := by
  constructor
  · decide
  · decide

/-- C5 (amended): the engine returned by filter(returns_only=true) has a
shipment table in which every row's return flag is true; and provided
every charge line's tracking number is carried by at least one freight
descriptor row (package_indicator 1, category FRT) and all charge lines
sharing a tracking number agree on the return flag, the number of rows
in that shipment table equals the total_returns count reported by
analyze_returns on the unfiltered engine (an empty returns summary
reporting zero). -/
theorem returns_filter_spec (data : List Row) :
    (∀ P ∈ aggregatePackages (filterData data none none none none true),
      P.is_return = true) ∧
    ((∀ r ∈ data, ∀ t, r.tracking_number = some t →
        ∃ x ∈ data, x.tracking_number = some t ∧ isFrtPkg x = true) →
      (∀ r ∈ data, ∀ x ∈ data,
        r.tracking_number = x.tracking_number → r.is_return = x.is_return) →
      (aggregatePackages (filterData data none none none none true)).length
        = returnsReported data) := by
  rw [filterData_returns_only]
  constructor
  · intro P hP
    rcases aggregate_rep hP with ⟨r, hr, _, _, hPr, _⟩
    rw [hPr]
    exact (List.mem_filter.mp hr).2
  · intro hdesc hret
    rw [returnsReported_eq]
    by_cases hd : data = []
    · rw [hd]
      rfl
    · by_cases hft : data.filter isFrtPkg = []
      · have hnone : ∀ r ∈ data, r.tracking_number = none := by
          intro r hr
          match htr : r.tracking_number with
          | none => rfl
          | some t =>
            rcases hdesc r hr t htr with ⟨x, hx, hxt, hxf⟩
            have hxm : x ∈ data.filter isFrtPkg := List.mem_filter.mpr ⟨hx, hxf⟩
            rw [hft] at hxm
            exact absurd hxm (List.not_mem_nil x)
        have h1 : aggregatePackages (data.filter Row.is_return) = [] :=
          aggregate_nil_of_none
            (fun r hr => hnone r (List.mem_of_mem_filter hr))
        have h2 : aggregatePackages data = [] := aggregate_nil_of_none hnone
        rw [h1, h2]
        rfl
      · by_cases hft2 : (data.filter Row.is_return).filter isFrtPkg = []
        · have hnoret : ∀ x ∈ data.filter isFrtPkg, x.is_return = false := by
            intro x hx
            cases hxr : x.is_return with
            | false => rfl
            | true =>
              have hxD : x ∈ data.filter Row.is_return :=
                List.mem_filter.mpr ⟨List.mem_of_mem_filter hx, hxr⟩
              have hxf : x ∈ (data.filter Row.is_return).filter isFrtPkg :=
                List.mem_filter.mpr ⟨hxD, (List.mem_filter.mp hx).2⟩
              rw [hft2] at hxf
              exact absurd hxf (List.not_mem_nil x)
          have hLHS : aggregatePackages (data.filter Row.is_return) = [] := by
            by_cases hD : data.filter Row.is_return = []
            · rw [hD]
              rfl
            · rw [aggregatePackages_eq _ hD, if_pos hft2]
              have hfm : ((data.filter Row.is_return).filter
                  isPkg).filterMap Row.tracking_number = [] := by
                apply List.filterMap_eq_nil_iff.mpr
                intro r hr
                match htr : r.tracking_number with
                | none => rfl
                | some t =>
                  rcases List.mem_filter.mp hr with ⟨hrD, _⟩
                  rcases List.mem_filter.mp hrD with ⟨hrdata, hrret⟩
                  rcases hdesc r hrdata t htr with ⟨x, hx, hxt, hxf⟩
                  have hxfrt : x ∈ data.filter isFrtPkg :=
                    List.mem_filter.mpr ⟨hx, hxf⟩
                  have heq := hret r hrdata x hx (by rw [htr, hxt])
                  have hxr : x.is_return = true := by
                    rw [← heq]
                    exact hrret
                  rw [hnoret x hxfrt] at hxr
                  exact absurd hxr (by simp)
              rw [hfm]
              rfl
          have hRHS : retsOf (aggregatePackages data) = [] := by
            rw [retsOf, aggregatePackages_eq data hd, if_neg hft,
              List.filter_map]
            have hnil : (dedupKeepFirst ((data.filter
                isFrtPkg).filterMap Row.tracking_number)).filter
                (Package.is_return ∘ mkPackage
                  (decide (data.filter isFrtPkg ≠ [])) data
                  (data.filter isFrtPkg)) = [] := by
              apply List.filter_eq_nil_iff.mpr
              intro t ht hbt
              rcases List.mem_filterMap.mp (mem_dedupKeepFirst.mp ht)
                with ⟨r0, hr0, hr0t⟩
              rcases rep_mem ⟨r0, hr0, hr0t⟩ with ⟨hrepmem, _⟩
              have hb2 : ((data.filter isFrtPkg).filter
                  (fun r => decide (r.tracking_number = some t))).headI.is_return
                  = true := hbt
              rw [hnoret _ hrepmem] at hb2
              exact absurd hb2 (by simp)
            rw [hnil]
            rfl
          rw [hLHS, hRHS]
        · have hD : data.filter Row.is_return ≠ [] := by
            intro h0
            rw [h0] at hft2
            exact hft2 rfl
          rw [aggregatePackages_eq _ hD, if_neg hft2, retsOf,
            aggregatePackages_eq data hd, if_neg hft, List.filter_map,
            List.length_map, List.length_map]
          apply List.Perm.length_eq
          apply (List.perm_ext_iff_of_nodup (nodup_dedupKeepFirst _)
            (List.Nodup.filter _ (nodup_dedupKeepFirst _))).mpr
          intro t
          constructor
          · intro ht
            rcases List.mem_filterMap.mp (mem_dedupKeepFirst.mp ht)
              with ⟨r, hr, hrt⟩
            rcases List.mem_filter.mp hr with ⟨hrD, hrf⟩
            rcases List.mem_filter.mp hrD with ⟨hrdata, hrret⟩
            apply List.mem_filter.mpr
            refine ⟨mem_dedupKeepFirst.mpr (List.mem_filterMap.mpr
              ⟨r, List.mem_filter.mpr ⟨hrdata, hrf⟩, hrt⟩), ?_⟩
            rcases rep_mem (⟨r, List.mem_filter.mpr ⟨hrdata, hrf⟩, hrt⟩ :
              ∃ x ∈ data.filter isFrtPkg, x.tracking_number = some t)
              with ⟨hrepmem, hrept⟩
            have heq := hret _ (List.mem_of_mem_filter hrepmem) r hrdata
              (by rw [hrept, hrt])
            show ((data.filter isFrtPkg).filter
              (fun x => decide (x.tracking_number = some t))).headI.is_return
              = true
            rw [heq]
            exact hrret
          · intro ht
            rcases List.mem_filter.mp ht with ⟨htD, hbt⟩
            rcases List.mem_filterMap.mp (mem_dedupKeepFirst.mp htD)
              with ⟨r0, hr0, hr0t⟩
            rcases rep_mem ⟨r0, hr0, hr0t⟩ with ⟨hrepmem, hrept⟩
            have hbt2 : ((data.filter isFrtPkg).filter
                (fun r => decide (r.tracking_number = some t))).headI.is_return
                = true := hbt
            apply mem_dedupKeepFirst.mpr
            apply List.mem_filterMap.mpr
            refine ⟨_, ?_, hrept⟩
            apply List.mem_filter.mpr
            exact ⟨List.mem_filter.mpr
              ⟨List.mem_of_mem_filter hrepmem, hbt2⟩,
              (List.mem_filter.mp hrepmem).2⟩

theorem returns_filter_spec_witness :
    (∀ P ∈ aggregatePackages (filterData dataW5 none none none none true),
      P.is_return = true) ∧
    (aggregatePackages (filterData dataW5 none none none none true)).length
      = returnsReported dataW5 := by
  have h := returns_filter_spec dataW5
  refine ⟨h.1, h.2 ?_ ?_⟩
  · intro r hr t htr
    rw [dataW5] at hr
    rcases List.mem_cons.mp hr with hr | hr
    · subst hr
      exact ⟨_, List.mem_cons_self _ _, htr, by decide⟩
    · exact absurd hr (List.not_mem_nil r)
  · intro r hr x hx _
    rw [dataW5] at hr hx
    rcases List.mem_cons.mp hr with hr | hr
    · rcases List.mem_cons.mp hx with hx | hx
      · rw [hr, hx]
      · exact absurd hx (List.not_mem_nil x)
    · exact absurd hr (List.not_mem_nil r)
